import Mathlib

/-!
# EasyJson: containers, document nodes, the AST builder and the arena

A shallow embedding of `include/containers.h`, `include/allocator.h` and
`src/EasyJson.cpp`, at two levels.

The document level (nodes, containers by their contents, builder, serialization).

* A C++ `char` is a `Char`; an `EJ::String` is the list of the bytes in
  `[beginPtr, endPtr)`.  Texts can then be written as literals, and every
  theorem is universal over the bytes.
* An `EJ::Array<T>` is the list `data[0], ..., data[sz-1]` of its live elements,
  each array with a block of its own.  The list does not hold the capacity of the
  block nor where the block lies.  This level therefore decides the calls that
  read, overwrite and remove elements, and `pushBack` on an array that has room;
  a `pushBack` that may reach `FastAllocator::reAlloc` is `undetermined` here and
  is decided at the memory level.
* `size_t` and `int` values are natural numbers and integers without wrap-around:
  this is what the source computes for containers of fewer than `2^31` elements.
* The `double` payload of a number node is a type parameter `D`: the code
  modelled here stores and returns it and never computes with it.
* Nodes live in the arena and are never freed: the arena's nodes are a list of
  node values (`Heap`), a `Node*` is an index into it (`NodeRef`); `malloc`
  returns a block whenever the arena asks for a page.
* A member function returns a value, throws, or has undefined behaviour
  (`Res`); one that changes the arena or the builder also returns the state it
  leaves behind (`Outcome`).

The memory level (`FastAllocator`, `ArrayObj`, `StringObj`, then the nodes, the
dictionaries and the builder on the cells of the arena).

* A pointer into the arena is a page and a byte offset; `size_t` arithmetic is
  modulo `2^64`, `sizeof(PageInfo)` is 24; `malloc` may refuse a block.
* `ArrayObj` is `Array` with its members `capacity`, `sz`, `data` and its elements
  in the memory of the arena: `pushBack` calls `reAlloc` when the array is full.
* `StringObj` is `String` with its two pointers as addresses.
* `Arena` is the allocator with the memory of its pages, cell by cell; the node
  classes, `Dictionary`, `ASTBuildHandler` and the members of `JSON` that parse
  are the source functions on it, with every allocation they make.  The growth of
  an array in place, over what follows its block, is seen at this level.
-/

namespace EJ

/-- Modelled from the spec: `globals.h`, which declares the exception classes, is not among the
sources.  The classes thrown in the sources keep their source names; `KeyNotFound` is the
remaining kind of the spec's error taxonomy (section 7), thrown nowhere in the sources.
`InvalidCStringError` is the kind the spec calls `InvalidRange`. -/
inductive Error where
  | OutOfMemoryError
  | ParseError
  | NotAnArrayError
  | NotAnObjectError
  | NotAnArrayOrObjectError
  | NotConvertibleError
  | IndexOutOfRangeError
  | InvalidCStringError
  | KeyNotFound
  deriving DecidableEq

/-- What a call of a const member function does: it returns `a`, throws `e`, or has undefined
behaviour.  `undetermined` is for a call whose result the state at hand does not tell: a read
of a byte of the arena that the program last wrote as part of something else. -/
inductive Res (α : Type) where
  | ok (a : α)
  | throws (e : Error)
  | ub
  | undetermined
  deriving DecidableEq

/-- What a call of a state-changing member function does, with the state `s` it leaves.
`undetermined` is for a call whose result the state at hand does not tell: at the document
level, a `pushBack` on an array that may be full, which then goes through
`FastAllocator::reAlloc` and does what the layout of the arena makes it do. -/
inductive Outcome (σ α : Type) where
  | ok (a : α) (s : σ)
  | throws (e : Error) (s : σ)
  | ub
  | undetermined
  deriving DecidableEq

/-- A C++ `char`. -/
abbrev Byte := Char

/-- An `EJ::String`: the bytes of `[beginPtr, endPtr)`. -/
abbrev String := List Byte

/-- An `EJ::Array<T, ALLOCATOR>`: the elements `data[0..sz)`. -/
abbrev Array (T : Type) := List T

/-- An `EJ::Dictionary<T, ALLOCATOR>`: an `Array` of `std::pair<String, T>`. -/
abbrev Dictionary (T : Type) := Array (String × T)

/-! ## String -/

/-- The constructor `String(const char* b)`: `strlen` ends the string at the first NUL byte.
The argument lists the bytes stored at `b`; when none of them is NUL the terminator follows
the last one. -/
def String.wrap (b : List Byte) : String :=
  b.takeWhile (fun c => c != Char.ofNat 0)

/-- The constructor `String(const char* b, const char* e, ALLOCATOR&)` on a range given by its
bytes (so `b <= e`): a non-empty range is copied into the arena, an empty one gives the
slice with both bounds null. -/
def String.copy (range : List Byte) : String :=
  if range.length > 0 then range else []

/-- The byte loop of `String::operator==`. -/
def String.eqLoop : List Byte → List Byte → Bool
  | a :: as, b :: bs => if a != b then false else String.eqLoop as bs
  | _, _ => true

/-- The member `String::operator==`: sizes first, then byte by byte. -/
def String.eq (self other : String) : Bool :=
  if self.length != other.length then false else String.eqLoop self other

/-- The member `String::toSTLString`. -/
def String.toSTLString (self : String) : List Byte :=
  match self with
  | [] => []
  | c :: cs => c :: cs

/-! ## Array -/

section Containers

variable {T : Type}

/-- The constant `Array::INIT_CAPACITY`. -/
def Array.INIT_CAPACITY : Nat := 10

/-- The member `Array::size`. -/
def Array.size (data : Array T) : Nat := data.length

/-- The member `Array::pushBack` on an array that has room.  The list holds the elements and
not the capacity of the block.  Every `Array` of the sources is constructed with the capacity
`INIT_CAPACITY`, and `pushBack` only ever doubles it: with fewer than `INIT_CAPACITY`
elements the test `sz == capacity` fails and the call is `data[sz++] = e`.  From
`INIT_CAPACITY` elements on the array may be full; the call then goes through
`FastAllocator::reAlloc`, which moves the block, extends it over what follows it in the page,
returns nothing or throws, by where the block lies and by what `malloc` does.  That call is
`ArrayObj.pushBack`, on the arena (which, with room, does what is said here:
`ArrayObj.pushBack_of_room`); here it is `undetermined`. -/
def Array.pushBack (data : Array T) (e : T) : Outcome (Array T) Unit :=
  if data.length < Array.INIT_CAPACITY then .ok () (data ++ [e]) else .undetermined

/-- The member `Array::popBack`. -/
def Array.popBack (data : Array T) : Outcome (Array T) T :=
  match data.getLast? with
  | none => .throws .IndexOutOfRangeError data
  | some x => .ok x data.dropLast

/-- The member `Array::shrink`. -/
def Array.shrink (data : Array T) (amount : Nat) : Outcome (Array T) Unit :=
  if amount > data.length then .throws .IndexOutOfRangeError data
  else .ok () (data.take (data.length - amount))

/-- The loop of `Array::remove`, `n` iterations from index `i` on: `data[i-1] = data[i]`. -/
def Array.shiftLeft (data : Array T) (i : Nat) : Nat → Array T
  | 0 => data
  | n + 1 =>
    match data.get? i with
    | some x => Array.shiftLeft (data.set (i - 1) x) (i + 1) n
    | none => data

/-- The member `Array::remove`. -/
def Array.remove (data : Array T) (idx : Nat) : Outcome (Array T) Unit :=
  if idx ≥ data.length then .throws .IndexOutOfRangeError data
  else .ok () (Array.shiftLeft data (idx + 1) (data.length - (idx + 1))).dropLast

/-- The member `Array::operator[]`, read. -/
def Array.index (data : Array T) (idx : Nat) : Res T :=
  match data.get? idx with
  | none => .throws .IndexOutOfRangeError
  | some x => .ok x

/-- The member `Array::operator[]` followed by an assignment to the element: `data[idx] = e`. -/
def Array.assign (data : Array T) (idx : Nat) (e : T) : Outcome (Array T) Unit :=
  if idx ≥ data.length then .throws .IndexOutOfRangeError data
  else .ok () (data.set idx e)

/-! ## Dictionary -/

/-- The loop of `Dictionary::find` over the entries from index `result` on. -/
def Dictionary.findFrom (key : String) : Dictionary T → Int → Int
  | [], _ => -1
  | entry :: rest, result =>
    if String.eq entry.1 key then result else Dictionary.findFrom key rest (result + 1)

/-- The member `Dictionary::find`: the index of the first entry with the key, or `-1`.  The
source counts in `int`, to which it narrows the size; the integers here do not wrap, which is
what the source computes for a dictionary of fewer than `2^31` entries. -/
def Dictionary.find (data : Dictionary T) (key : String) : Int :=
  Dictionary.findFrom key data 0

/-- The member `Dictionary::size`. -/
def Dictionary.size (data : Dictionary T) : Nat := Array.size data

/-- The member `Dictionary::get`. -/
def Dictionary.get (data : Dictionary T) (key : String) : Res T :=
  let result := Dictionary.find data key
  if result == -1 then .throws .IndexOutOfRangeError
  else
    match Array.index data result.toNat with
    | .ok entry => .ok entry.2
    | .throws e => .throws e
    | .ub => .ub
    | .undetermined => .undetermined

/-- The member `Dictionary::set`: the value of the first entry with the key is written in
place; without such an entry the pair is pushed, as `Array.pushBack` has it. -/
def Dictionary.set (data : Dictionary T) (key : String) (value : T) :
    Outcome (Dictionary T) Unit :=
  let result := Dictionary.find data key
  if result == -1 then Array.pushBack data (key, value)
  else
    match Array.index data result.toNat with
    | .ok entry => .ok () (List.set data result.toNat (entry.1, value))
    | .throws e => .throws e data
    | .ub => .ub
    | .undetermined => .undetermined

/-- The member `Dictionary::remove`. -/
def Dictionary.remove (data : Dictionary T) (key : String) : Outcome (Dictionary T) Unit :=
  let result := Dictionary.find data key
  if result == -1 then .throws .IndexOutOfRangeError data
  else Array.remove data result.toNat

/-- The member `Dictionary::keys`. -/
def Dictionary.keys (data : Dictionary T) : List (List Byte) :=
  data.map (fun entry => String.toSTLString entry.1)

end Containers

/-! ## Document nodes -/

/-- A `Node*`: the position of the node among the nodes of the arena. -/
abbrev NodeRef := Nat

/-- The classes derived from `Node`, each with its data member. -/
inductive Node (D : Type) where
  | NumberNode (data : D)
  | StringNode (data : String)
  | BoolNode (data : Bool)
  | NullNode
  | ArrayNode (data : Array NodeRef)
  | ObjectNode (data : Dictionary NodeRef)
  deriving DecidableEq

/-- The nodes allocated from one `FastAllocator`, in allocation order. -/
abbrev Heap (D : Type) := List (Node D)

section Nodes

variable {D : Type}

/-- The virtual `Node::at`: `ArrayNode` overrides it, every other class throws. -/
def Node.at_ (self : Node D) (idx : Nat) : Res NodeRef :=
  match self with
  | .ArrayNode data => Array.index data idx
  | _ => .throws .NotAnArrayError

/-- The virtual `Node::key`: `ObjectNode` overrides it; the `const char*` becomes a `String`. -/
def Node.key (self : Node D) (k : List Byte) : Res NodeRef :=
  match self with
  | .ObjectNode data => Dictionary.get data (String.wrap k)
  | _ => .throws .NotAnObjectError

/-- The virtual `Node::append`. -/
def Node.append (self : Node D) (node : NodeRef) : Outcome (Node D) Unit :=
  match self with
  | .ArrayNode data =>
    match Array.pushBack data node with
    | .ok _ data1 => .ok () (.ArrayNode data1)
    | .throws e data1 => .throws e (.ArrayNode data1)
    | .ub => .ub
    | .undetermined => .undetermined
  | _ => .throws .NotAnArrayError self

/-- The virtual `Node::setAt`. -/
def Node.setAt (self : Node D) (idx : Nat) (node : NodeRef) : Outcome (Node D) Unit :=
  match self with
  | .ArrayNode data =>
    match Array.assign data idx node with
    | .ok _ data1 => .ok () (.ArrayNode data1)
    | .throws e data1 => .throws e (.ArrayNode data1)
    | .ub => .ub
    | .undetermined => .undetermined
  | _ => .throws .NotAnArrayError self

/-- The virtual `Node::setKey`. -/
def Node.setKey (self : Node D) (key : List Byte) (node : NodeRef) : Outcome (Node D) Unit :=
  match self with
  | .ObjectNode data =>
    match Dictionary.set data (String.wrap key) node with
    | .ok _ data1 => .ok () (.ObjectNode data1)
    | .throws e data1 => .throws e (.ObjectNode data1)
    | .ub => .ub
    | .undetermined => .undetermined
  | _ => .throws .NotAnObjectError self

/-- The virtual `Node::removeAt`. -/
def Node.removeAt (self : Node D) (idx : Nat) : Outcome (Node D) Unit :=
  match self with
  | .ArrayNode data =>
    match Array.remove data idx with
    | .ok _ data1 => .ok () (.ArrayNode data1)
    | .throws e data1 => .throws e (.ArrayNode data1)
    | .ub => .ub
    | .undetermined => .undetermined
  | _ => .throws .NotAnArrayError self

/-- The virtual `Node::removeKey`. -/
def Node.removeKey (self : Node D) (k : List Byte) : Outcome (Node D) Unit :=
  match self with
  | .ObjectNode data =>
    match Dictionary.remove data (String.wrap k) with
    | .ok _ data1 => .ok () (.ObjectNode data1)
    | .throws e data1 => .throws e (.ObjectNode data1)
    | .ub => .ub
    | .undetermined => .undetermined
  | _ => .throws .NotAnObjectError self

/-- The virtual `Node::size`: overridden by `ArrayNode` and `ObjectNode`. -/
def Node.size (self : Node D) : Res Nat :=
  match self with
  | .ArrayNode data => .ok (Array.size data)
  | .ObjectNode data => .ok (Dictionary.size data)
  | _ => .throws .NotAnArrayOrObjectError

/-- The virtual `Node::fields`: overridden by `ObjectNode`. -/
def Node.fields (self : Node D) : Res (List (List Byte)) :=
  match self with
  | .ObjectNode data => .ok (Dictionary.keys data)
  | _ => .throws .NotAnObjectError

/-- The virtual `Node::asDouble`: overridden by `NumberNode`. -/
def Node.asDouble (self : Node D) : Res D :=
  match self with
  | .NumberNode data => .ok data
  | _ => .throws .NotConvertibleError

/-- The virtual `Node::asBool`: overridden by `BoolNode`. -/
def Node.asBool (self : Node D) : Res Bool :=
  match self with
  | .BoolNode data => .ok data
  | _ => .throws .NotConvertibleError

/-- The virtual `Node::asString`: no class overrides it (`StringNode` has `toSTLString` and
no `asString`), so every node runs the base implementation. -/
def Node.asString (_self : Node D) : Res (List Byte) :=
  .throws .NotConvertibleError

/-- The member `StringNode::toSTLString`. -/
def StringNode.toSTLString (data : String) : List Byte := String.toSTLString data

end Nodes

/-! ## The AST builder -/

/-- The calls the parser makes on its handler, one constructor per action of
`ASTBuildHandler`.  `string` carries the bytes of the range `[b, e)`. -/
inductive Event (D : Type) where
  | string (range : List Byte)
  | number (val : D)
  | bool (b : Bool)
  | null
  | beginArray
  | endArray (size : Nat)
  | beginObject
  | endObject (size : Nat)
  deriving DecidableEq

/-- The class `ASTBuildHandler`: the allocator it allocates from (here the nodes of the arena)
and its parse stack. -/
structure ASTBuildHandler (D : Type) where
  allocator : Heap D
  parseStack : Array NodeRef
  deriving DecidableEq

section Builder

variable {D : Type}

/-- The constructor `ASTBuildHandler(FastAllocator&)`. -/
def ASTBuildHandler.new (a : Heap D) : ASTBuildHandler D :=
  ⟨a, []⟩

/-- The expression `new (allocator) C(...)` followed by `parseStack.pushBack`: the node is
placed in the arena and the pointer to it is pushed. -/
def ASTBuildHandler.pushNew (self : ASTBuildHandler D) (node : Node D) :
    Outcome (ASTBuildHandler D) Unit :=
  match Array.pushBack self.parseStack self.allocator.length with
  | .ok _ stack => .ok () ⟨self.allocator ++ [node], stack⟩
  | .throws e stack => .throws e ⟨self.allocator ++ [node], stack⟩
  | .ub => .ub
  | .undetermined => .undetermined

/-- The member `ASTBuildHandler::getAST`.  In the else branch the statement
`ParseError("Illegal JSON format.");` builds a temporary and throws nothing; control then
reaches the end of a function returning `Node*` without a return statement. -/
def ASTBuildHandler.getAST (self : ASTBuildHandler D) : Outcome (ASTBuildHandler D) NodeRef :=
  if Array.size self.parseStack == 1 then
    match Array.popBack self.parseStack with
    | .ok node rest => .ok node ⟨self.allocator, rest⟩
    | .throws e rest => .throws e ⟨self.allocator, rest⟩
    | .ub => .ub
    | .undetermined => .undetermined
  else
    .ub

/-- The member `ASTBuildHandler::stringAction`. -/
def ASTBuildHandler.stringAction (self : ASTBuildHandler D) (range : List Byte) :
    Outcome (ASTBuildHandler D) Unit :=
  self.pushNew (.StringNode (String.copy range))

/-- The member `ASTBuildHandler::numberAction`. -/
def ASTBuildHandler.numberAction (self : ASTBuildHandler D) (val : D) :
    Outcome (ASTBuildHandler D) Unit :=
  self.pushNew (.NumberNode val)

/-- The member `ASTBuildHandler::boolAction`. -/
def ASTBuildHandler.boolAction (self : ASTBuildHandler D) (b : Bool) :
    Outcome (ASTBuildHandler D) Unit :=
  self.pushNew (.BoolNode b)

/-- The member `ASTBuildHandler::nullAction`. -/
def ASTBuildHandler.nullAction (self : ASTBuildHandler D) : Outcome (ASTBuildHandler D) Unit :=
  self.pushNew .NullNode

/-- The member `ASTBuildHandler::beginArrayAction`. -/
def ASTBuildHandler.beginArrayAction (self : ASTBuildHandler D) :
    Outcome (ASTBuildHandler D) Unit :=
  .ok () self

/-- The loop of `ASTBuildHandler::endArrayAction` over the pointers popped:
`arr->data.pushBack(*iter)`, on the array `data` of the new node. -/
def ASTBuildHandler.arrayLoop : List NodeRef → Array NodeRef → Outcome (Array NodeRef) Unit
  | [], data => .ok () data
  | node :: rest, data =>
    match Array.pushBack data node with
    | .ok _ data1 => ASTBuildHandler.arrayLoop rest data1
    | .throws e data1 => .throws e data1
    | .ub => .ub
    | .undetermined => .undetermined

/-- The end of `endArrayAction` and of `endObjectAction`: `parseStack.shrink(size)`, then
`parseStack.pushBack` of the new node. -/
def ASTBuildHandler.replaceTop (allocator : Heap D) (parseStack : Array NodeRef) (size : Nat)
    (node : NodeRef) : Outcome (ASTBuildHandler D) Unit :=
  match Array.shrink parseStack size with
  | .ok _ rest =>
    match Array.pushBack rest node with
    | .ok _ stack => .ok () ⟨allocator, stack⟩
    | .throws e stack => .throws e ⟨allocator, stack⟩
    | .ub => .ub
    | .undetermined => .undetermined
  | .throws e rest => .throws e ⟨allocator, rest⟩
  | .ub => .ub
  | .undetermined => .undetermined

/-- The member `ASTBuildHandler::endArrayAction`.  With `size` above the stack height the
iterator `parseStack.end() - size` starts before the block and the loop reads outside it. -/
def ASTBuildHandler.endArrayAction (self : ASTBuildHandler D) (size : Nat) :
    Outcome (ASTBuildHandler D) Unit :=
  if size > Array.size self.parseStack then .ub
  else
    let arr := self.allocator.length
    match ASTBuildHandler.arrayLoop
        (self.parseStack.drop (Array.size self.parseStack - size)) [] with
    | .ok _ data =>
      ASTBuildHandler.replaceTop (self.allocator ++ [Node.ArrayNode data]) self.parseStack
        size arr
    | .throws e data => .throws e ⟨self.allocator ++ [Node.ArrayNode data], self.parseStack⟩
    | .ub => .ub
    | .undetermined => .undetermined

/-- The member `ASTBuildHandler::beginObjectAction`. -/
def ASTBuildHandler.beginObjectAction (self : ASTBuildHandler D) :
    Outcome (ASTBuildHandler D) Unit :=
  .ok () self

/-- The loop of `ASTBuildHandler::endObjectAction` over the key and value pointers popped:
`obj->data.set(static_cast<StringNode*>(*iter)->data, *(iter + 1))`, on the dictionary `data`
of the new object.  A key pointer to a node of another class makes the cast and the access
undefined. -/
def ASTBuildHandler.objectLoop (allocator : Heap D) :
    List NodeRef → Dictionary NodeRef → Outcome (Dictionary NodeRef) Unit
  | k :: v :: rest, data =>
    match allocator.get? k with
    | some (.StringNode s) =>
      match Dictionary.set data s v with
      | .ok _ data1 => ASTBuildHandler.objectLoop allocator rest data1
      | .throws e data1 => .throws e data1
      | .ub => .ub
      | .undetermined => .undetermined
    | _ => .ub
  | [_], _ => .ub
  | [], data => .ok () data

/-- The member `ASTBuildHandler::endObjectAction`. -/
def ASTBuildHandler.endObjectAction (self : ASTBuildHandler D) (size : Nat) :
    Outcome (ASTBuildHandler D) Unit :=
  let size := size * 2
  if size > Array.size self.parseStack then .ub
  else
    let obj := self.allocator.length
    match ASTBuildHandler.objectLoop self.allocator
        (self.parseStack.drop (Array.size self.parseStack - size)) [] with
    | .ok _ data =>
      ASTBuildHandler.replaceTop (self.allocator ++ [Node.ObjectNode data]) self.parseStack
        size obj
    | .throws e data => .throws e ⟨self.allocator ++ [Node.ObjectNode data], self.parseStack⟩
    | .ub => .ub
    | .undetermined => .undetermined

/-- One call of the parser on the handler. -/
def ASTBuildHandler.handle (self : ASTBuildHandler D) :
    Event D → Outcome (ASTBuildHandler D) Unit
  | .string range => self.stringAction range
  | .number val => self.numberAction val
  | .bool b => self.boolAction b
  | .null => self.nullAction
  | .beginArray => self.beginArrayAction
  | .endArray size => self.endArrayAction size
  | .beginObject => self.beginObjectAction
  | .endObject size => self.endObjectAction size

/-- The calls of a whole event stream, in order; a call that throws ends the run. -/
def ASTBuildHandler.feed (self : ASTBuildHandler D) :
    List (Event D) → Outcome (ASTBuildHandler D) Unit
  | [] => .ok () self
  | ev :: evs =>
    match self.handle ev with
    | .ok _ next => ASTBuildHandler.feed next evs
    | .throws e next => .throws e next
    | .ub => .ub
    | .undetermined => .undetermined

end Builder

/-! ## Serialization -/

section Serialize

variable {D : Type}

/-- The members `ArrayNode::printIndent` and `ObjectNode::printIndent`: four spaces per level. -/
def printIndent : Nat → List Byte
  | 0 => []
  | indentLevel + 1 => "    ".toList ++ printIndent indentLevel

/-- The output of a loop that writes one piece per element, in order; the loop has no output
when the output of a piece is missing. -/
def emitAll {α : Type} (emit : α → Option (List Byte)) : List α → Option (List Byte)
  | [] => some []
  | x :: xs =>
    match emit x, emitAll emit xs with
    | some a, some b => some (a ++ b)
    | _, _ => none

/-- The virtual `Node::serialize` of the node at `node`: the bytes written to the stream.
`fmt` is the text `ss << data` writes for a `double`.  The recursion follows the child
pointers, `fuel` bounds its depth: `none` stands for a depth above `fuel` or a pointer outside
the arena.  The first loop of a composite writes every child but the last, each followed by a
comma and a newline; then the last child is written. -/
def Node.serialize (fmt : D → List Byte) (allocator : Heap D) :
    Nat → NodeRef → Nat → Option (List Byte)
  | 0, _, _ => none
  | fuel + 1, node, indentLevel =>
    match allocator.get? node with
    | none => none
    | some (.NumberNode data) => some (fmt data)
    | some (.StringNode data) => some (StringNode.toSTLString data)
    | some (.BoolNode data) => some (if data then "true".toList else "false".toList)
    | some .NullNode => some "null".toList
    | some (.ArrayNode data) =>
      let element := fun (child : NodeRef) =>
        (Node.serialize fmt allocator fuel child (indentLevel + 1)).map
          (fun text => printIndent (indentLevel + 1) ++ text)
      let opening := "[".toList ++
        (if indentLevel > 0 then "\n".toList else printIndent indentLevel)
      let closing := "\n".toList ++ printIndent indentLevel ++ "]".toList
      match emitAll (fun child => (element child).map (fun text => text ++ ",\n".toList))
          data.dropLast, emitAll element data.getLast?.toList with
      | some front, some last => some (opening ++ front ++ last ++ closing)
      | _, _ => none
    | some (.ObjectNode data) =>
      let member := fun (entry : String × NodeRef) =>
        (Node.serialize fmt allocator fuel entry.2 (indentLevel + 1)).map
          (fun text => printIndent (indentLevel + 1) ++ "\"".toList ++
            String.toSTLString entry.1 ++ "\" : ".toList ++ text)
      let opening := "\x7b".toList ++
        (if indentLevel > 0 then "\n".toList else printIndent indentLevel ++ "\n".toList)
      let closing := "\n".toList ++ printIndent indentLevel ++ "\x7d".toList
      match emitAll (fun entry => (member entry).map (fun text => text ++ ",\n".toList))
          data.dropLast, emitAll member data.getLast?.toList with
      | some front, some last => some (opening ++ front ++ last ++ closing)
      | _, _ => none

end Serialize

/-! ## The document handle -/

section Facade

variable {D : Type}

/-- The call `node->f(...)` of a const member through the handle's node pointer. -/
def JSON.call {α : Type} (allocator : Heap D) (node : NodeRef) (f : Node D → Res α) : Res α :=
  match allocator.get? node with
  | none => .ub
  | some n => f n

/-- The call `node->f(...)` of a state-changing member through the handle's node pointer: the
node is changed in place, in the arena. -/
def JSON.update (allocator : Heap D) (node : NodeRef) (f : Node D → Outcome (Node D) Unit) :
    Outcome (Heap D) Unit :=
  match allocator.get? node with
  | none => .ub
  | some n =>
    match f n with
    | .ok _ n1 => .ok () (allocator.set node n1)
    | .throws e n1 => .throws e (allocator.set node n1)
    | .ub => .ub
    | .undetermined => .undetermined

/-- The member `JSON::parse`.  `events` stands for the calls that
`Parser<TextScanner, ASTBuildHandler>(TextScanner(content), handler).parseValue()` makes on
the handler for the text `content`; the parser and the scanner are not among the sources. -/
def JSON.parse (events : List (Event D)) (alc : Heap D) : Outcome (Heap D) NodeRef :=
  match (ASTBuildHandler.new alc).feed events with
  | .ok _ handler =>
    match handler.getAST with
    | .ok node handler1 => .ok node handler1.allocator
    | .throws e handler1 => .throws e handler1.allocator
    | .ub => .ub
    | .undetermined => .undetermined
  | .throws e handler => .throws e handler.allocator
  | .ub => .ub
  | .undetermined => .undetermined

/-- The member `JSON::at`: the node pointer of the handle returned. -/
def JSON.at_ (allocator : Heap D) (node : NodeRef) (idx : Nat) : Res NodeRef :=
  JSON.call allocator node (fun n => n.at_ idx)

/-- The member `JSON::key`: the node pointer of the handle returned. -/
def JSON.key (allocator : Heap D) (node : NodeRef) (key : List Byte) : Res NodeRef :=
  JSON.call allocator node (fun n => n.key key)

/-- The member `JSON::asDouble`. -/
def JSON.asDouble (allocator : Heap D) (node : NodeRef) : Res D :=
  JSON.call allocator node Node.asDouble

/-- The member `JSON::asBool`. -/
def JSON.asBool (allocator : Heap D) (node : NodeRef) : Res Bool :=
  JSON.call allocator node Node.asBool

/-- The member `JSON::asString`. -/
def JSON.asString (allocator : Heap D) (node : NodeRef) : Res (List Byte) :=
  JSON.call allocator node Node.asString

/-- The member `JSON::size`. -/
def JSON.size (allocator : Heap D) (node : NodeRef) : Res Nat :=
  JSON.call allocator node Node.size

/-- The member `JSON::keys`. -/
def JSON.keys (allocator : Heap D) (node : NodeRef) : Res (List (List Byte)) :=
  JSON.call allocator node Node.fields

/-- The member `JSON::serialize`, at indent level `0`.  The depth of a tree of nodes is at most
the number of nodes of the arena, which is the fuel given. -/
def JSON.serialize (fmt : D → List Byte) (allocator : Heap D) (node : NodeRef) :
    Option (List Byte) :=
  Node.serialize fmt allocator (allocator.length + 1) node 0

/-- The call `node->f(parse(content, *allocator))` of the three members that parse a text. -/
def JSON.updateParsed (allocator : Heap D) (node : NodeRef) (content : List (Event D))
    (f : Node D → NodeRef → Outcome (Node D) Unit) : Outcome (Heap D) Unit :=
  match JSON.parse content allocator with
  | .ok parsed allocator1 => JSON.update allocator1 node (fun n => f n parsed)
  | .throws e allocator1 => .throws e allocator1
  | .ub => .ub
  | .undetermined => .undetermined

/-- The member `JSON::append`. -/
def JSON.append (allocator : Heap D) (node : NodeRef) (content : List (Event D)) :
    Outcome (Heap D) Unit :=
  JSON.updateParsed allocator node content Node.append

/-- The member `JSON::setAt`. -/
def JSON.setAt (allocator : Heap D) (node : NodeRef) (idx : Nat) (content : List (Event D)) :
    Outcome (Heap D) Unit :=
  JSON.updateParsed allocator node content (fun n parsed => n.setAt idx parsed)

/-- The member `JSON::setKey`. -/
def JSON.setKey (allocator : Heap D) (node : NodeRef) (k : List Byte)
    (content : List (Event D)) : Outcome (Heap D) Unit :=
  JSON.updateParsed allocator node content (fun n parsed => n.setKey k parsed)

/-- The member `JSON::removeAt`. -/
def JSON.removeAt (allocator : Heap D) (node : NodeRef) (idx : Nat) : Outcome (Heap D) Unit :=
  JSON.update allocator node (fun n => n.removeAt idx)

/-- The member `JSON::removeKey`. -/
def JSON.removeKey (allocator : Heap D) (node : NodeRef) (k : List Byte) :
    Outcome (Heap D) Unit :=
  JSON.update allocator node (fun n => n.removeKey k)

end Facade

/-! ## Document trees

The reference against which the nodes built in the arena are compared: a JSON value as a
tree, and the comparison of a node with a tree. -/

/-- A document tree: a JSON value. -/
inductive Tree (D : Type) where
  | number (val : D)
  | string (bytes : List Byte)
  | bool (b : Bool)
  | null
  | array (items : List (Tree D))
  | object (members : List (List Byte × Tree D))

section Trees

variable {D : Type}

mutual
/-- The node at `node` is structurally equal to the tree: the same variant, the same scalar
value, the elements of an array equal in order, the members of an object equal in order, key
by key and value by value. -/
def Heap.structEq [DecidableEq D] (allocator : Heap D) : NodeRef → Tree D → Bool
  | node, .number val => decide (allocator.get? node = some (.NumberNode val))
  | node, .string bytes => decide (allocator.get? node = some (.StringNode bytes))
  | node, .bool b => decide (allocator.get? node = some (.BoolNode b))
  | node, .null => decide (allocator.get? node = some .NullNode)
  | node, .array items =>
    match allocator.get? node with
    | some (.ArrayNode data) => Heap.structEqItems allocator data items
    | _ => false
  | node, .object members =>
    match allocator.get? node with
    | some (.ObjectNode data) => Heap.structEqMembers allocator data members
    | _ => false
/-- The nodes of an array are equal to the trees of a list, in order. -/
def Heap.structEqItems [DecidableEq D] (allocator : Heap D) :
    List NodeRef → List (Tree D) → Bool
  | [], [] => true
  | node :: nodes, t :: ts =>
    Heap.structEq allocator node t && Heap.structEqItems allocator nodes ts
  | _, _ => false
/-- The entries of a dictionary are equal to the members of a list, in order. -/
def Heap.structEqMembers [DecidableEq D] (allocator : Heap D) :
    List (String × NodeRef) → List (List Byte × Tree D) → Bool
  | [], [] => true
  | (key, node) :: entries, (k, t) :: ms =>
    decide (key = k) && Heap.structEq allocator node t &&
      Heap.structEqMembers allocator entries ms
  | _, _ => false
end

end Trees

/-! ## The entries of a dictionary, key by key -/

section DictionaryRuns

variable {T : Type}

/-- The entries without the first entry with the key. -/
def Dictionary.eraseKey (key : String) : Dictionary T → Dictionary T
  | [] => []
  | entry :: rest => if entry.1 = key then rest else entry :: Dictionary.eraseKey key rest

/-- The value of the first entry with the key. -/
def Dictionary.firstValue (key : String) : Dictionary T → Option T
  | [] => none
  | entry :: rest => if entry.1 = key then some entry.2 else Dictionary.firstValue key rest

end DictionaryRuns

/-! ## The words of the specification on the layout of a composite -/

/-- The lines of the children, a comma and a newline after every line except the last. -/
def commaLines : List (List Byte) → List Byte
  | [] => []
  | line :: rest =>
    match rest with
    | [] => line
    | _ :: _ => line ++ ",\n".toList ++ commaLines rest

/-- The words of the specification on a composite with the children texts `children` at
indent level `indentLevel`: the opening bracket and a newline, each child on its own line
behind `4 * (indentLevel + 1)` spaces, a comma after every child except the last, a newline,
`4 * indentLevel` spaces and the closing bracket. -/
def prettyComposite (opening closing : List Byte) (indentLevel : Nat)
    (children : List (List Byte)) : List Byte :=
  opening ++ "\n".toList ++
    commaLines (children.map (fun child => List.replicate (4 * (indentLevel + 1)) ' ' ++ child))
    ++ "\n".toList ++ List.replicate (4 * indentLevel) ' ' ++ closing

/-- The text of a member of an object: the key between double quotes, ` : `, the value. -/
def memberText (key : String) (value : List Byte) : List Byte :=
  "\"".toList ++ key ++ "\" : ".toList ++ value

/-! ## The arena allocator

`FastAllocator` on its own terms: pages with a capacity and a used counter, pointers as a page
and a byte offset from the start of the page (where the `PageInfo` header lies), and the
memory of the pages as a map from pointers to what is stored there.  `size_t` is 64 bits wide
and its arithmetic wraps. -/

/-- The constant `FastAllocator::PAGE_SIZE`. -/
def PAGE_SIZE : Nat := 16 * 1024

/-- The size `sizeof(PageInfo)`: a pointer and two `size_t`, eight bytes each. -/
def sizeofPageInfo : Nat := 24

/-- The number of values of a `size_t`. -/
def SIZE_RANGE : Nat := 2 ^ 64

/-- The sum of two `size_t`. -/
def addSize (a b : Nat) : Nat := (a + b) % SIZE_RANGE

/-- The difference of two `size_t`. -/
def subSize (a b : Nat) : Nat := (a + SIZE_RANGE - b) % SIZE_RANGE

/-- The struct `FastAllocator::PageInfo`; `next` is the order of the pages in the list. -/
structure PageInfo where
  capacity : Nat
  used : Nat
  deriving DecidableEq

/-- A pointer into a page: the page, by its position in the list that starts at `firstPage`,
and the offset in bytes from the start of the page. -/
structure Ptr where
  page : Nat
  off : Nat
  deriving DecidableEq

/-- The class `FastAllocator`: the pages from `firstPage` on along `next`, and `current` as a
position in that list. -/
structure FastAllocator where
  pages : List PageInfo
  current : Nat
  deriving DecidableEq

/-- The contents of the pages: what is stored at each pointer.  With `V` the bytes this is the
memory byte by byte; with `V` the elements of an array it is the memory at the grain of the
elements, each stored at the pointer to its first byte. -/
abbrev Memory (V : Type) := Ptr → V

/-- The member `FastAllocator::newPage`.  `granted` tells whether `malloc` returns a block.
The new page is linked behind `current` and becomes `current`. -/
def FastAllocator.newPage (granted : Bool) (self : FastAllocator) (sz : Nat) :
    Outcome FastAllocator Unit :=
  let sz := if sz < PAGE_SIZE then PAGE_SIZE else sz
  if granted then
    let pages := self.pages.take (self.current + 1) ++ [⟨sz, sizeofPageInfo⟩]
    .ok () ⟨pages, pages.length - 1⟩
  else .throws .OutOfMemoryError self

/-- The allocator after its constructor, when `malloc` returned the first page. -/
def FastAllocator.fresh : FastAllocator := ⟨[⟨PAGE_SIZE, sizeofPageInfo⟩], 0⟩

/-- The constructor `FastAllocator()`. -/
def FastAllocator.new (granted : Bool) : Outcome FastAllocator Unit :=
  FastAllocator.newPage granted ⟨[], 0⟩ PAGE_SIZE

/-- The member `FastAllocator::alloc`.  `granted` tells whether `malloc`, when the call needs a
new page, returns a block. -/
def FastAllocator.alloc (granted : Bool) (self : FastAllocator) (sz : Nat) :
    Outcome FastAllocator Ptr :=
  match self.pages.get? self.current with
  | none => .ub
  | some cur =>
    match (if sz > subSize cur.capacity cur.used
      then self.newPage granted (addSize sz sizeofPageInfo) else .ok () self) with
    | .ok _ a1 =>
      match a1.pages.get? a1.current with
      | none => .ub
      | some cur1 =>
        .ok ⟨a1.current, cur1.used⟩
          ⟨a1.pages.set a1.current ⟨cur1.capacity, addSize cur1.used sz⟩, a1.current⟩
    | .throws e a1 => .throws e a1
    | .ub => .ub
    | .undetermined => .undetermined

/-- The call `memcpy(dst, src, n)` on the contents. -/
def memcpy {V : Type} (mem : Memory V) (dst src : Ptr) (n : Nat) : Memory V :=
  fun p =>
    if p.page = dst.page ∧ dst.off ≤ p.off ∧ p.off < dst.off + n
    then mem ⟨src.page, src.off + (p.off - dst.off)⟩ else mem p

/-- The member `FastAllocator::reAlloc`.  The test `(char*)old + old_sz == (char*)current +
new_sz` compares addresses: pointers into different pages are different, pointers into the
current page are compared by their offsets.  Where that test holds and the page lacks the
room, no return statement is reached. -/
def FastAllocator.reAlloc {V : Type} (granted : Bool) (self : FastAllocator) (mem : Memory V)
    (old : Ptr) (old_sz new_sz : Nat) : Outcome (FastAllocator × Memory V) Ptr :=
  match self.pages.get? self.current with
  | none => .ub
  | some cur =>
    if new_sz ≤ old_sz then
      .ok old (⟨self.pages.set self.current ⟨cur.capacity, subSize cur.used (old_sz - new_sz)⟩,
        self.current⟩, mem)
    else if old.page = self.current ∧ old.off + old_sz = new_sz then
      if addSize cur.used (new_sz - old_sz) ≤ cur.capacity then
        .ok old (⟨self.pages.set self.current
          ⟨cur.capacity, addSize cur.used (new_sz - old_sz)⟩, self.current⟩, mem)
      else .ub
    else
      match self.alloc granted new_sz with
      | .ok ret a1 => .ok ret (a1, memcpy mem ret old old_sz)
      | .throws e a1 => .throws e (a1, mem)
      | .ub => .ub
      | .undetermined => .undetermined

/-- A run of `alloc` calls, each with its size and with whether `malloc` would return a block:
the allocator after the run and the blocks returned, pointer and size, oldest first.  A call
that throws leaves the allocator as it was and the run goes on; `none` stands for undefined
behaviour on the way. -/
def FastAllocator.allocAll (self : FastAllocator) :
    List (Bool × Nat) → Option (FastAllocator × List (Ptr × Nat))
  | [] => some (self, [])
  | (granted, sz) :: rest =>
    match self.alloc granted sz with
    | .ok ptr a1 => (FastAllocator.allocAll a1 rest).map (fun r => (r.1, (ptr, sz) :: r.2))
    | .throws _ a1 => FastAllocator.allocAll a1 rest
    | .ub => none
    | .undetermined => none

/-! ## Array in the arena -/

/-- The class `Array<T, FastAllocator>` as an object: its members `capacity`, `sz` and `data`.
The elements are in the arena. -/
structure ArrayObj where
  capacity : Nat
  sz : Nat
  data : Ptr
  deriving DecidableEq

section ArrayInArena

variable {V : Type}

/-- The constant `Array::INIT_CAPACITY`. -/
def ArrayObj.INIT_CAPACITY : Nat := 10

/-- The pointer `data + i`, for elements of `sizeofT` bytes. -/
def ArrayObj.slot (self : ArrayObj) (sizeofT : Nat) (i : Nat) : Ptr :=
  ⟨self.data.page, self.data.off + i * sizeofT⟩

/-- The elements `data[0], ..., data[sz - 1]` as the memory holds them. -/
def ArrayObj.elements (self : ArrayObj) (sizeofT : Nat) (mem : Memory V) : List V :=
  (List.range self.sz).map (fun i => mem (self.slot sizeofT i))

/-- The constructor `Array(ALLOCATOR&, size_t cap)`. -/
def ArrayObj.new (granted : Bool) (sizeofT : Nat) (allocator : FastAllocator) (cap : Nat) :
    Outcome FastAllocator ArrayObj :=
  match allocator.alloc granted (cap * sizeofT) with
  | .ok data a1 => .ok ⟨cap, 0, data⟩ a1
  | .throws e a1 => .throws e a1
  | .ub => .ub
  | .undetermined => .undetermined

/-- The growth step of `Array::pushBack`, taken when `sz == capacity`: the block is
reallocated to twice the capacity. -/
def ArrayObj.grow (granted : Bool) (sizeofT : Nat) (self : ArrayObj)
    (allocator : FastAllocator) (mem : Memory V) :
    Outcome (ArrayObj × FastAllocator × Memory V) Unit :=
  match allocator.reAlloc granted mem self.data (self.capacity * sizeofT)
      (self.capacity * 2 * sizeofT) with
  | .ok newData (a1, mem1) => .ok () (⟨self.capacity * 2, self.sz, newData⟩, a1, mem1)
  | .throws err (a1, mem1) => .throws err (self, a1, mem1)
  | .ub => .ub
  | .undetermined => .undetermined

/-- The member `Array::pushBack`, on the array object, the allocator and the memory. -/
def ArrayObj.pushBack (granted : Bool) (sizeofT : Nat) (self : ArrayObj)
    (allocator : FastAllocator) (mem : Memory V) (e : V) :
    Outcome (ArrayObj × FastAllocator × Memory V) Unit :=
  let grown : Outcome (ArrayObj × FastAllocator × Memory V) Unit :=
    if self.sz = self.capacity then ArrayObj.grow granted sizeofT self allocator mem
    else .ok () (self, allocator, mem)
  match grown with
  | .ok _ (arr, a1, mem1) =>
    .ok () (⟨arr.capacity, arr.sz + 1, arr.data⟩, a1,
      fun p => if p = arr.slot sizeofT arr.sz then e else mem1 p)
  | .throws err s => .throws err s
  | .ub => .ub
  | .undetermined => .undetermined

/-- The member `Array::popBack`. -/
def ArrayObj.popBack (sizeofT : Nat) (self : ArrayObj) (mem : Memory V) : Outcome ArrayObj V :=
  if self.sz = 0 then .throws .IndexOutOfRangeError self
  else .ok (mem (self.slot sizeofT (self.sz - 1))) ⟨self.capacity, self.sz - 1, self.data⟩

/-- The loop of `Array::remove` on the memory, `n` iterations from index `i` on. -/
def ArrayObj.shiftLeft (sizeofT : Nat) (self : ArrayObj) (mem : Memory V) (i : Nat) :
    Nat → Memory V
  | 0 => mem
  | n + 1 =>
    ArrayObj.shiftLeft sizeofT self
      (fun p => if p = self.slot sizeofT (i - 1) then mem (self.slot sizeofT i) else mem p)
      (i + 1) n

/-- The member `Array::remove`. -/
def ArrayObj.remove (sizeofT : Nat) (self : ArrayObj) (mem : Memory V) (idx : Nat) :
    Outcome (ArrayObj × Memory V) Unit :=
  if idx ≥ self.sz then .throws .IndexOutOfRangeError (self, mem)
  else .ok () (⟨self.capacity, self.sz - 1, self.data⟩,
    ArrayObj.shiftLeft sizeofT self mem (idx + 1) (self.sz - (idx + 1)))

/-- A run of `pushBack` calls, `malloc` always returning a block. -/
def ArrayObj.pushAll (sizeofT : Nat) (self : ArrayObj) (allocator : FastAllocator)
    (mem : Memory V) : List V → Option (ArrayObj × FastAllocator × Memory V)
  | [] => some (self, allocator, mem)
  | e :: rest =>
    match ArrayObj.pushBack true sizeofT self allocator mem e with
    | .ok _ (arr, a1, mem1) => ArrayObj.pushAll sizeofT arr a1 mem1 rest
    | _ => none

end ArrayInArena

/-! ## The invariant of the arena, in the words of the specification -/

/-- The invariant of the pages: the current page is the last of the list, and every page has
`sizeof(PageInfo) <= used <= capacity`, the capacity a `size_t`. -/
def FastAllocator.wf (self : FastAllocator) : Prop :=
  self.current + 1 = self.pages.length ∧
  ∀ page ∈ self.pages,
    sizeofPageInfo ≤ page.used ∧ page.used ≤ page.capacity ∧ page.capacity < SIZE_RANGE

/-- The block, a pointer and a size, lies in the used part of the payload of its page: behind
the header and below the used counter. -/
def FastAllocator.holds (self : FastAllocator) (block : Ptr × Nat) : Prop :=
  ∃ page, self.pages.get? block.1.page = some page ∧
    sizeofPageInfo ≤ block.1.off ∧ block.1.off + block.2 ≤ page.used

/-- Two blocks share no byte: they lie in different pages, or one ends where or before the
other starts. -/
def Ptr.disjoint (b1 b2 : Ptr × Nat) : Prop :=
  b1.1.page ≠ b2.1.page ∨ b1.1.off + b1.2 ≤ b2.1.off ∨ b2.1.off + b2.2 ≤ b1.1.off

/-! ## Scenarios on the arena -/

/-- The allocator after `alloc(56)`, `alloc(80)` and `alloc(16)` on a fresh arena: the block of
80 bytes starts at offset `80` of the page and is followed by the block of 16 bytes. -/
def arenaWithInnerBlock : FastAllocator := ⟨[⟨PAGE_SIZE, 176⟩], 0⟩

/-- The allocator after `alloc(56)`, `alloc(80)` and `alloc(16200)` on a fresh arena: 24 bytes
of the page are left. -/
def arenaNearlyFull : FastAllocator := ⟨[⟨PAGE_SIZE, 16360⟩], 0⟩

/-- Two arrays of eight-byte elements in one arena.  After `alloc(56)` the arrays `A` and `B`
are constructed, in this order, `7` is pushed on `B`, and the eleven values `100, ..., 110`
are pushed on `A`, the memory holding `0` everywhere before.  The result: the elements of
`A`, the elements of `B`, the two array objects and the allocator. -/
def twoArrays : Option (List Nat × List Nat × ArrayObj × ArrayObj × FastAllocator) :=
  match FastAllocator.fresh.alloc true 56 with
  | .ok _ a1 =>
    match ArrayObj.new true 8 a1 ArrayObj.INIT_CAPACITY with
    | .ok arrA a2 =>
      match ArrayObj.new true 8 a2 ArrayObj.INIT_CAPACITY with
      | .ok arrB a3 =>
        match ArrayObj.pushBack true 8 arrB a3 (fun _ => 0) 7 with
        | .ok _ (arrB1, a4, mem1) =>
          match ArrayObj.pushAll 8 arrA a4 mem1
              [100, 101, 102, 103, 104, 105, 106, 107, 108, 109, 110] with
          | some (arrA1, a5, mem2) =>
            some (arrA1.elements 8 mem2, arrB1.elements 8 mem2, arrA1, arrB1, a5)
          | none => none
        | _ => none
      | _ => none
    | _ => none
  | _ => none

/-- The same two arrays with ten values pushed on `A`, one less: no growth takes place. -/
def twoArraysBeforeGrowth : Option (List Nat × List Nat × ArrayObj × ArrayObj × FastAllocator) :=
  match FastAllocator.fresh.alloc true 56 with
  | .ok _ a1 =>
    match ArrayObj.new true 8 a1 ArrayObj.INIT_CAPACITY with
    | .ok arrA a2 =>
      match ArrayObj.new true 8 a2 ArrayObj.INIT_CAPACITY with
      | .ok arrB a3 =>
        match ArrayObj.pushBack true 8 arrB a3 (fun _ => 0) 7 with
        | .ok _ (arrB1, a4, mem1) =>
          match ArrayObj.pushAll 8 arrA a4 mem1
              [100, 101, 102, 103, 104, 105, 106, 107, 108, 109] with
          | some (arrA1, a5, mem2) =>
            some (arrA1.elements 8 mem2, arrB1.elements 8 mem2, arrA1, arrB1, a5)
          | none => none
        | _ => none
      | _ => none
    | _ => none
  | _ => none

/-- The pointer returned and the allocator left by a call of `reAlloc`, without the memory;
`none` stands for a call that returns nothing. -/
def reAllocResult (r : Outcome (FastAllocator × Memory Nat) Ptr) : Option (Ptr × FastAllocator) :=
  match r with
  | .ok ptr (a, _) => some (ptr, a)
  | _ => none

/-! ## String on pointers -/

/-- The class `String` as an object: the members `beginPtr` and `endPtr`, as addresses; `0` is
the null pointer. -/
structure StringObj where
  beginPtr : Nat
  endPtr : Nat
  deriving DecidableEq

/-- The member `String::size`: `endPtr - beginPtr` as a `size_t`. -/
def StringObj.size (self : StringObj) : Nat := subSize self.endPtr self.beginPtr

/-- The bytes of the slice `[beginPtr, endPtr)` in the memory `mem`. -/
def StringObj.bytes (mem : Nat → Byte) (self : StringObj) : List Byte :=
  (List.range self.size).map (fun i => mem (self.beginPtr + i))

/-- The member `String::operator[]`: the test is `idx > sz`, then `*(beginPtr + idx)` is read.
Reading through the null bounds of an empty slice is undefined. -/
def StringObj.index (mem : Nat → Byte) (self : StringObj) (idx : Nat) : Res Byte :=
  let sz := self.size
  if idx > sz then .throws .IndexOutOfRangeError
  else if self.beginPtr = 0 then .ub
  else .ok (mem (self.beginPtr + idx))

/-- The constructor `String(const char* b, const char* e, ALLOCATOR&)` on the addresses `b` and
`e`, for an allocator given by its `alloc` (the constructor is a template in the allocator).
The result is `none` for the slice with both bounds null, or the block `beginPtr` points to
and its size.  `sz` is a `size_t`, so the test `sz < 0` is on a number that is never negative.
A `memcpy` whose source range `[b, b + sz)` leaves the address space is undefined.
`String.copy` is this constructor on the bytes of a range with `b <= e`. -/
def StringObj.copy {σ : Type} (alloc : σ → Nat → Outcome σ Ptr) (allocator : σ) (b e : Nat) :
    Outcome σ (Option (Ptr × Nat)) :=
  let sz := subSize e b
  if sz < 0 then .throws .InvalidCStringError allocator
  else if sz > 0 then
    match alloc allocator sz with
    | .ok buff a1 => if b + sz ≥ SIZE_RANGE then .ub else .ok (some (buff, sz)) a1
    | .throws err a1 => .throws err a1
    | .ub => .ub
    | .undetermined => .undetermined
  else .ok none allocator

/-- A memory with the literal `ab` at the addresses `100` and `101`, its terminator at `102`,
and NUL bytes elsewhere. -/
def literalAb : Nat → Byte :=
  fun address => if address = 100 then 'a' else if address = 101 then 'b' else Char.ofNat 0

/-! ## Nodes, dictionaries and the builder in the arena

The classes of `src/EasyJson.cpp` with their objects in the memory of the arena.  A cell of
the memory is a scalar member of an object, a `String` member, or an element of an array, and
it is stored at the address of its first byte.  A store writes its cell and makes every
other cell it covers indeterminate; a read of a cell that is not of the kind read is
undefined, except for the read of a `char`, which is `undetermined`.  The sizes are those of
the LP64 data model with the Itanium C++ ABI: eight bytes for a pointer, a reference, a
`size_t`, a `double` and the vtable pointer of a node. -/

section ArrayMembers

variable {V : Type}

/-- The member `Array::operator[]`, read, on the array object. -/
def ArrayObj.index (sizeofT : Nat) (self : ArrayObj) (mem : Memory V) (idx : Nat) : Res V :=
  if idx ≥ self.sz then .throws .IndexOutOfRangeError
  else .ok (mem (self.slot sizeofT idx))

/-- The member `Array::shrink`, on the array object. -/
def ArrayObj.shrink (self : ArrayObj) (amount : Nat) : Outcome ArrayObj Unit :=
  if amount > self.sz then .throws .IndexOutOfRangeError self
  else .ok () ⟨self.capacity, self.sz - amount, self.data⟩

end ArrayMembers

/-- The classes derived from `Node`: what the vtable pointer of a node object tells. -/
inductive NodeClass where
  | NumberNode
  | StringNode
  | BoolNode
  | NullNode
  | ArrayNode
  | ObjectNode
  deriving DecidableEq

/-- Modelled from the spec: `UnCopyable`, the base class of `FastAllocator`, `Array`,
`Dictionary` and `ASTBuildHandler`, is declared in `globals.h`, which is not among the
sources.  The spec has these classes forbid copying and says nothing else of it: the class is
taken without data members and without virtual functions, so that as a base it adds no byte
to an object. -/
def sizeofUnCopyable : Nat := 0

/-- The size `sizeof(String)`: two pointers. -/
def sizeofString : Nat := 16

/-- The size `sizeof(Array<T, FastAllocator>)`: the base, then the reference `allocator` at
offset 0, `capacity` at 8, `sz` at 16 and `data` at 24. -/
def sizeofArray : Nat := sizeofUnCopyable + 32

/-- The offset of the member `data` in a `Dictionary`.  The `Array` begins with a base of
class `UnCopyable`, as the `Dictionary` does, and two bases of one class do not share an
address: the member lies behind the base of the `Dictionary`, at the next multiple of
eight. -/
def offsetofDictionaryData : Nat := 8

/-- The size `sizeof(Dictionary<T, FastAllocator>)`. -/
def sizeofDictionary : Nat := offsetofDictionaryData + sizeofArray

/-- The size `sizeof(C)` of a node class: the vtable pointer, eight bytes, and the data
member; the `bool` of a `BoolNode` is padded to eight bytes. -/
def NodeClass.size : NodeClass → Nat
  | .NumberNode => 8 + 8
  | .StringNode => 8 + sizeofString
  | .BoolNode => 8 + 8
  | .NullNode => 8
  | .ArrayNode => 8 + sizeofArray
  | .ObjectNode => 8 + sizeofDictionary

/-- The size `sizeof(Node*)` of an element of the parse stack and of an `ArrayNode`. -/
def sizeofNodePtr : Nat := 8

/-- The size `sizeof(std::pair<String, Node*>)` of an element of a `Dictionary`. -/
def sizeofPair : Nat := 24

/-- The offset of the member `data` in a `NumberNode`, a `StringNode`, a `BoolNode` and an
`ArrayNode`: behind the vtable pointer. -/
def offsetofData : Nat := 8

/-- The offset, in an `ObjectNode`, of the `Array` that is the member `data` of its
`Dictionary`. -/
def offsetofEntries : Nat := offsetofData + offsetofDictionaryData

/-- The pointer `p + n`, in bytes. -/
def Ptr.add (p : Ptr) (n : Nat) : Ptr := ⟨p.page, p.off + n⟩

/-- A `String` object by what its two pointers delimit: nothing (both null), `sz` bytes of the
arena from `beginPtr` on (made by the copying constructor), or bytes outside the arena (made
by `String(const char*)` from a text of the caller, which the arena never writes). -/
inductive StringRef where
  | null
  | arena (beginPtr : Ptr) (sz : Nat)
  | outside (bytes : List Byte)
  deriving DecidableEq

/-- What is stored at an address of the arena. -/
inductive Cell (D : Type) where
  | raw
  | char (c : Byte)
  | vptr (c : NodeClass)
  | double (data : D)
  | bool (data : Bool)
  | size (n : Nat)
  | allocator
  | data (p : Ptr)
  | string (s : StringRef)
  | node (p : Ptr)
  | pair (first : StringRef) (second : Ptr)
  deriving DecidableEq

/-- The cell holds the reference to the allocator. -/
def Cell.isAllocator {D : Type} : Cell D → Bool
  | .allocator => true
  | _ => false

/-- The number of bytes a cell stands for: one for a `char`, a `bool` and a byte that was
never written, 16 for a `String`, 24 for a pair, eight for the others. -/
def Cell.width {D : Type} : Cell D → Nat
  | .raw => 1
  | .char _ => 1
  | .bool _ => 1
  | .string _ => 16
  | .pair _ _ => 24
  | _ => 8

/-- The cell, as it is when a store begins `dist` bytes behind its first byte, `dist > 0`:
the cell itself when it ends before the store begins, and indeterminate bytes when it
reaches into the bytes stored. -/
def Cell.before {D : Type} (c : Cell D) (dist : Nat) : Cell D :=
  match c with
  | .raw => .raw
  | .char x => .char x
  | .bool b => .bool b
  | .vptr k => if dist < 8 then .raw else .vptr k
  | .double d => if dist < 8 then .raw else .double d
  | .size n => if dist < 8 then .raw else .size n
  | .allocator => if dist < 8 then .raw else .allocator
  | .data p => if dist < 8 then .raw else .data p
  | .node p => if dist < 8 then .raw else .node p
  | .string s => if dist < 16 then .raw else .string s
  | .pair first second => if dist < 24 then .raw else .pair first second

/-- The memory after a store of `n` bytes at `p`, as to the cells around `p`: a cell that
begins inside the bytes stored, behind `p`, is indeterminate, and so is a cell that begins
before `p` and reaches into them (no cell is wider than 24 bytes).  The cell at `p` is the
one the store wrote. -/
def Memory.covered {D : Type} (mem : Memory (Cell D)) (p : Ptr) (n : Nat) : Memory (Cell D) :=
  fun q =>
    if q.page = p.page ∧ p.off < q.off ∧ q.off < p.off + n then .raw
    else if q.page = p.page ∧ q.off < p.off ∧ p.off < q.off + 24 then
      (mem q).before (p.off - q.off)
    else mem q

/-- The arena: the allocator and the contents of its pages. -/
structure Arena (D : Type) where
  allocator : FastAllocator
  mem : Memory (Cell D)

section NodesInArena

variable {D : Type}

/-- The arena of a fresh allocator: nothing has been written to its page. -/
def Arena.fresh : Arena D := ⟨FastAllocator.fresh, fun _ => .raw⟩

/-- A store of one cell, `c.width` bytes, at `p`. -/
def Arena.store (self : Arena D) (p : Ptr) (c : Cell D) : Arena D :=
  ⟨self.allocator, Memory.covered (fun q => if q = p then c else self.mem q) p c.width⟩

/-- The member `Array::pushBack` on an array object whose elements are cells of the arena,
each `sizeofT` bytes wide: `ArrayObj.pushBack`, and what the store of the element does to
the cells it covers. -/
def ArrayObj.pushBackCell (malloc : Nat → Bool) (sizeofT : Nat) (self : ArrayObj)
    (arena : Arena D) (e : Cell D) : Outcome (ArrayObj × Arena D) Unit :=
  match ArrayObj.pushBack (malloc arena.allocator.pages.length) sizeofT self arena.allocator
      arena.mem e with
  | .ok _ (a1, alc1, mem1) =>
    .ok () (a1, ⟨alc1, Memory.covered mem1 (a1.slot sizeofT (a1.sz - 1)) sizeofT⟩)
  | .throws err (a1, alc1, mem1) => .throws err (a1, ⟨alc1, mem1⟩)
  | .ub => .ub
  | .undetermined => .undetermined

/-- The call `allocator.alloc(sz)`.  `malloc` tells, for the number of pages the allocator
has, whether `malloc` returns a block for the next one. -/
def Arena.alloc (malloc : Nat → Bool) (self : Arena D) (sz : Nat) : Outcome (Arena D) Ptr :=
  match self.allocator.alloc (malloc self.allocator.pages.length) sz with
  | .ok p a1 => .ok p ⟨a1, self.mem⟩
  | .throws e a1 => .throws e ⟨a1, self.mem⟩
  | .ub => .ub
  | .undetermined => .undetermined

/-- The members `capacity`, `sz` and `data` of the `Array` object at `arr`, behind its
member `allocator`; a member function of `Array` reads the three of them together.  `none`
when one of the cells is not what the constructor or `pushBack` stored there. -/
def Arena.loadArray (self : Arena D) (arr : Ptr) : Option ArrayObj :=
  match self.mem (arr.add 8), self.mem (arr.add 16), self.mem (arr.add 24) with
  | .size capacity, .size sz, .data data => some ⟨capacity, sz, data⟩
  | _, _, _ => none

/-- The stores of the members `capacity`, `sz` and `data` of the `Array` object at `arr`. -/
def Arena.storeArray (self : Arena D) (arr : Ptr) (a : ArrayObj) : Arena D :=
  ((self.store (arr.add 8) (.size a.capacity)).store (arr.add 16) (.size a.sz)).store
    (arr.add 24) (.data a.data)

/-- The constructor `Array(ALLOCATOR&, size_t cap)` of the `Array` object at `arr`, for the
default capacity. -/
def Arena.newArray (malloc : Nat → Bool) (sizeofT : Nat) (self : Arena D) (arr : Ptr) :
    Outcome (Arena D) Unit :=
  match ArrayObj.new (malloc self.allocator.pages.length) sizeofT self.allocator
      ArrayObj.INIT_CAPACITY with
  | .ok a alc1 => .ok () ((Arena.store ⟨alc1, self.mem⟩ arr .allocator).storeArray arr a)
  | .throws err alc1 => .throws err ⟨alc1, self.mem⟩
  | .ub => .ub
  | .undetermined => .undetermined

/-- The member `Array::pushBack` of the `Array` object at `arr`.  The reference `allocator`
is used when the array grows. -/
def Arena.pushBack (malloc : Nat → Bool) (sizeofT : Nat) (self : Arena D) (arr : Ptr)
    (e : Cell D) : Outcome (Arena D) Unit :=
  match self.loadArray arr with
  | none => .ub
  | some a =>
    if a.sz = a.capacity ∧ (self.mem arr).isAllocator = false then .ub
    else
      match ArrayObj.pushBackCell malloc sizeofT a self e with
      | .ok _ (a1, arena1) => .ok () (arena1.storeArray arr a1)
      | .throws err (a1, arena1) => .throws err (arena1.storeArray arr a1)
      | .ub => .ub
      | .undetermined => .undetermined

/-! ### String -/

/-- The member `String::size`. -/
def StringRef.size : StringRef → Nat
  | .null => 0
  | .arena _ sz => sz
  | .outside bytes => bytes.length

/-- The read `beginPtr[i]` of a `char`, for `i` below the size.  A byte of the arena that the
program last wrote as part of something else has a value the cells do not tell. -/
def StringRef.byteAt (mem : Memory (Cell D)) (self : StringRef) (i : Nat) : Option Byte :=
  match self with
  | .null => none
  | .arena beginPtr _ =>
    match mem (beginPtr.add i) with
    | .char c => some c
    | _ => none
  | .outside bytes => bytes.get? i

/-- The byte loop of `String::operator==`, `n` iterations from index `i` on. -/
def StringRef.eqLoop (mem : Memory (Cell D)) (self other : StringRef) (i : Nat) :
    Nat → Res Bool
  | 0 => .ok true
  | n + 1 =>
    match self.byteAt mem i, other.byteAt mem i with
    | some a, some b =>
      if a != b then .ok false else StringRef.eqLoop mem self other (i + 1) n
    | _, _ => .undetermined

/-- The member `String::operator==`. -/
def StringRef.eq (mem : Memory (Cell D)) (self other : StringRef) : Res Bool :=
  if self.size != other.size then .ok false
  else StringRef.eqLoop mem self other 0 self.size

/-- The bytes `beginPtr[i], ..., beginPtr[i + n - 1]`. -/
def StringRef.bytesFrom (mem : Memory (Cell D)) (self : StringRef) (i : Nat) :
    Nat → Res (List Byte)
  | 0 => .ok []
  | n + 1 =>
    match self.byteAt mem i, StringRef.bytesFrom mem self (i + 1) n with
    | some c, .ok cs => .ok (c :: cs)
    | _, _ => .undetermined

/-- The member `String::toSTLString`. -/
def StringRef.toSTLString (mem : Memory (Cell D)) (self : StringRef) : Res (List Byte) :=
  match self with
  | .null => .ok []
  | s => StringRef.bytesFrom mem s 0 s.size

/-- The constructor `String(const char* b, const char* e, ALLOCATOR&)` with the arena as the
allocator.  `text` is the memory of the caller, where `b` and `e` point; the bytes of the
range are copied to the block. -/
def StringRef.copy (malloc : Nat → Bool) (text : Nat → Byte) (arena : Arena D) (b e : Nat) :
    Outcome (Arena D) StringRef :=
  match StringObj.copy (Arena.alloc malloc) arena b e with
  | .ok (some (buff, sz)) a1 =>
    .ok (.arena buff sz) ⟨a1.allocator, fun q =>
      if q.page = buff.page ∧ buff.off ≤ q.off ∧ q.off < buff.off + sz
      then .char (text (b + (q.off - buff.off))) else a1.mem q⟩
  | .ok none a1 => .ok .null a1
  | .throws err a1 => .throws err a1
  | .ub => .ub
  | .undetermined => .undetermined

/-! ### Dictionary -/

/-- The loop of `Dictionary::find` over the entries from index `result` on, `n` of them. -/
def DictionaryObj.findFrom (mem : Memory (Cell D)) (self : ArrayObj) (key : StringRef)
    (result : Nat) : Nat → Res Int
  | 0 => .ok (-1)
  | n + 1 =>
    match ArrayObj.index sizeofPair self mem result with
    | .ok (.pair first _) =>
      match StringRef.eq mem first key with
      | .ok true => .ok result
      | .ok false => DictionaryObj.findFrom mem self key (result + 1) n
      | .throws e => .throws e
      | .ub => .ub
      | .undetermined => .undetermined
    | .ok _ => .ub
    | .throws e => .throws e
    | .ub => .ub
    | .undetermined => .undetermined

/-- The member `Dictionary::find`, `self` being the member `data`.  The source counts in
`int`; the integers here do not wrap, which is what it computes below `2^31` entries. -/
def DictionaryObj.find (mem : Memory (Cell D)) (self : ArrayObj) (key : StringRef) : Res Int :=
  DictionaryObj.findFrom mem self key 0 self.sz

/-- The member `Dictionary::get`. -/
def DictionaryObj.get (mem : Memory (Cell D)) (self : ArrayObj) (key : StringRef) : Res Ptr :=
  match DictionaryObj.find mem self key with
  | .ok result =>
    if result == -1 then .throws .IndexOutOfRangeError
    else
      match ArrayObj.index sizeofPair self mem result.toNat with
      | .ok (.pair _ second) => .ok second
      | .ok _ => .ub
      | .throws e => .throws e
      | .ub => .ub
      | .undetermined => .undetermined
  | .throws e => .throws e
  | .ub => .ub
  | .undetermined => .undetermined

/-- The member `Dictionary::set`: the array object and the arena it leaves. -/
def DictionaryObj.set (malloc : Nat → Bool) (self : ArrayObj) (arena : Arena D)
    (key : StringRef) (value : Ptr) : Outcome (ArrayObj × Arena D) Unit :=
  match DictionaryObj.find arena.mem self key with
  | .ok result =>
    if result == -1 then ArrayObj.pushBackCell malloc sizeofPair self arena (.pair key value)
    else
      match ArrayObj.index sizeofPair self arena.mem result.toNat with
      | .ok (.pair first _) =>
        .ok () (self, arena.store (self.slot sizeofPair result.toNat) (.pair first value))
      | .ok _ => .ub
      | .throws e => .throws e (self, arena)
      | .ub => .ub
      | .undetermined => .undetermined
  | .throws e => .throws e (self, arena)
  | .ub => .ub
  | .undetermined => .undetermined

/-- The loop of `Dictionary::keys` over the entries from index `i` on, `n` of them. -/
def DictionaryObj.keysFrom (mem : Memory (Cell D)) (self : ArrayObj) (i : Nat) :
    Nat → Res (List (List Byte))
  | 0 => .ok []
  | n + 1 =>
    match mem (self.slot sizeofPair i) with
    | .pair first _ =>
      match StringRef.toSTLString mem first with
      | .ok k =>
        match DictionaryObj.keysFrom mem self (i + 1) n with
        | .ok ks => .ok (k :: ks)
        | .throws e => .throws e
        | .ub => .ub
        | .undetermined => .undetermined
      | .throws e => .throws e
      | .ub => .ub
      | .undetermined => .undetermined
    | _ => .ub

/-- The member `Dictionary::keys`. -/
def DictionaryObj.keys (mem : Memory (Cell D)) (self : ArrayObj) : Res (List (List Byte)) :=
  DictionaryObj.keysFrom mem self 0 self.sz

/-- The member `Dictionary::set` of the `Dictionary` whose member `data` is the `Array`
object at `arr`. -/
def Arena.set (malloc : Nat → Bool) (self : Arena D) (arr : Ptr) (key : StringRef)
    (value : Ptr) : Outcome (Arena D) Unit :=
  match self.loadArray arr with
  | none => .ub
  | some a =>
    match DictionaryObj.find self.mem a key with
    | .ok result =>
      if result == -1 then Arena.pushBack malloc sizeofPair self arr (.pair key value)
      else
        match ArrayObj.index sizeofPair a self.mem result.toNat with
        | .ok (.pair first _) =>
          .ok () (self.store (a.slot sizeofPair result.toNat) (.pair first value))
        | .ok _ => .ub
        | .throws e => .throws e self
        | .ub => .ub
        | .undetermined => .undetermined
    | .throws e => .throws e self
    | .ub => .ub
    | .undetermined => .undetermined

/-! ### The node classes -/

/-- The expression `new (allocator) NumberNode(val)`. -/
def NodeObj.newNumberNode (malloc : Nat → Bool) (arena : Arena D) (val : D) :
    Outcome (Arena D) Ptr :=
  match arena.alloc malloc (NodeClass.size .NumberNode) with
  | .ok p a1 => .ok p ((a1.store p (.vptr .NumberNode)).store (p.add offsetofData) (.double val))
  | .throws e a1 => .throws e a1
  | .ub => .ub
  | .undetermined => .undetermined

/-- The expression `new (allocator) BoolNode(b)`. -/
def NodeObj.newBoolNode (malloc : Nat → Bool) (arena : Arena D) (b : Bool) :
    Outcome (Arena D) Ptr :=
  match arena.alloc malloc (NodeClass.size .BoolNode) with
  | .ok p a1 => .ok p ((a1.store p (.vptr .BoolNode)).store (p.add offsetofData) (.bool b))
  | .throws e a1 => .throws e a1
  | .ub => .ub
  | .undetermined => .undetermined

/-- The expression `new (allocator) NullNode()`. -/
def NodeObj.newNullNode (malloc : Nat → Bool) (arena : Arena D) : Outcome (Arena D) Ptr :=
  match arena.alloc malloc (NodeClass.size .NullNode) with
  | .ok p a1 => .ok p (a1.store p (.vptr .NullNode))
  | .throws e a1 => .throws e a1
  | .ub => .ub
  | .undetermined => .undetermined

/-- The expression `new (allocator) StringNode(b, e, allocator)`: the node is allocated, then
its member `data` is constructed, which allocates the block of the bytes. -/
def NodeObj.newStringNode (malloc : Nat → Bool) (text : Nat → Byte) (arena : Arena D)
    (b e : Nat) : Outcome (Arena D) Ptr :=
  match arena.alloc malloc (NodeClass.size .StringNode) with
  | .ok p a1 =>
    match StringRef.copy malloc text a1 b e with
    | .ok s a2 => .ok p ((a2.store p (.vptr .StringNode)).store (p.add offsetofData) (.string s))
    | .throws err a2 => .throws err a2
    | .ub => .ub
    | .undetermined => .undetermined
  | .throws e a1 => .throws e a1
  | .ub => .ub
  | .undetermined => .undetermined

/-- The expression `new (allocator) ArrayNode(allocator)`: the node is allocated, then its
member `data` is constructed, which allocates the block of the elements. -/
def NodeObj.newArrayNode (malloc : Nat → Bool) (arena : Arena D) : Outcome (Arena D) Ptr :=
  match arena.alloc malloc (NodeClass.size .ArrayNode) with
  | .ok p a1 =>
    match Arena.newArray malloc sizeofNodePtr a1 (p.add offsetofData) with
    | .ok _ a2 => .ok p (a2.store p (.vptr .ArrayNode))
    | .throws err a2 => .throws err a2
    | .ub => .ub
    | .undetermined => .undetermined
  | .throws e a1 => .throws e a1
  | .ub => .ub
  | .undetermined => .undetermined

/-- The expression `new (allocator) ObjectNode(allocator)`. -/
def NodeObj.newObjectNode (malloc : Nat → Bool) (arena : Arena D) : Outcome (Arena D) Ptr :=
  match arena.alloc malloc (NodeClass.size .ObjectNode) with
  | .ok p a1 =>
    match Arena.newArray malloc sizeofPair a1 (p.add offsetofEntries) with
    | .ok _ a2 => .ok p (a2.store p (.vptr .ObjectNode))
    | .throws err a2 => .throws err a2
    | .ub => .ub
    | .undetermined => .undetermined
  | .throws e a1 => .throws e a1
  | .ub => .ub
  | .undetermined => .undetermined

/-- The class of the object a virtual call on `node` dispatches to: what its vtable pointer
tells.  `none` when the cell at `node` is not a vtable pointer. -/
def NodeObj.classOf (arena : Arena D) (node : Ptr) : Option NodeClass :=
  match arena.mem node with
  | .vptr c => some c
  | _ => none

/-- The virtual `Node::at` on the node object at `node`. -/
def NodeObj.at_ (arena : Arena D) (node : Ptr) (idx : Nat) : Res Ptr :=
  match NodeObj.classOf arena node with
  | none => .ub
  | some .ArrayNode =>
    match arena.loadArray (node.add offsetofData) with
    | none => .ub
    | some a =>
      match ArrayObj.index sizeofNodePtr a arena.mem idx with
      | .ok (.node p) => .ok p
      | .ok _ => .ub
      | .throws e => .throws e
      | .ub => .ub
      | .undetermined => .undetermined
  | some _ => .throws .NotAnArrayError

/-- The virtual `Node::size` on the node object at `node`. -/
def NodeObj.size (arena : Arena D) (node : Ptr) : Res Nat :=
  match NodeObj.classOf arena node with
  | none => .ub
  | some .ArrayNode =>
    match arena.loadArray (node.add offsetofData) with
    | none => .ub
    | some a => .ok a.sz
  | some .ObjectNode =>
    match arena.loadArray (node.add offsetofEntries) with
    | none => .ub
    | some a => .ok a.sz
  | some _ => .throws .NotAnArrayOrObjectError

/-- The virtual `Node::asDouble` on the node object at `node`. -/
def NodeObj.asDouble (arena : Arena D) (node : Ptr) : Res D :=
  match NodeObj.classOf arena node with
  | none => .ub
  | some .NumberNode =>
    match arena.mem (node.add offsetofData) with
    | .double data => .ok data
    | _ => .ub
  | some _ => .throws .NotConvertibleError

/-- The virtual `Node::key` on the node object at `node`. -/
def NodeObj.key (arena : Arena D) (node : Ptr) (k : List Byte) : Res Ptr :=
  match NodeObj.classOf arena node with
  | none => .ub
  | some .ObjectNode =>
    match arena.loadArray (node.add offsetofEntries) with
    | none => .ub
    | some a => DictionaryObj.get arena.mem a (.outside (String.wrap k))
  | some _ => .throws .NotAnObjectError

/-- The virtual `Node::fields` on the node object at `node`. -/
def NodeObj.fields (arena : Arena D) (node : Ptr) : Res (List (List Byte)) :=
  match NodeObj.classOf arena node with
  | none => .ub
  | some .ObjectNode =>
    match arena.loadArray (node.add offsetofEntries) with
    | none => .ub
    | some a => DictionaryObj.keys arena.mem a
  | some _ => .throws .NotAnObjectError

/-- The virtual `Node::setAt` on the node object at `node`. -/
def NodeObj.setAt (arena : Arena D) (node : Ptr) (idx : Nat) (value : Ptr) :
    Outcome (Arena D) Unit :=
  match NodeObj.classOf arena node with
  | none => .ub
  | some .ArrayNode =>
    match arena.loadArray (node.add offsetofData) with
    | none => .ub
    | some a =>
      if idx ≥ a.sz then .throws .IndexOutOfRangeError arena
      else .ok () (arena.store (a.slot sizeofNodePtr idx) (.node value))
  | some _ => .throws .NotAnArrayError arena

/-- The virtual `Node::setKey` on the node object at `node`; the `const char*` becomes a
`String`. -/
def NodeObj.setKey (malloc : Nat → Bool) (arena : Arena D) (node : Ptr) (key : List Byte)
    (value : Ptr) : Outcome (Arena D) Unit :=
  match NodeObj.classOf arena node with
  | none => .ub
  | some .ObjectNode =>
    Arena.set malloc arena (node.add offsetofEntries) (.outside (String.wrap key)) value
  | some _ => .throws .NotAnObjectError arena

end NodesInArena

/-! ### The builder -/

/-- The calls the parser makes on its handler, one constructor per action of
`ASTBuildHandler`, with the arguments of the action.  The pointers of `stringAction` are
addresses in the text that is parsed. -/
inductive Call (D : Type) where
  | stringAction (b e : Nat)
  | numberAction (val : D)
  | boolAction (b : Bool)
  | nullAction
  | beginArrayAction
  | endArrayAction (size : Nat)
  | beginObjectAction
  | endObjectAction (size : Nat)

/-- The class `ASTBuildHandler` as an object: the arena its member `allocator` refers to, and
its member `parseStack`, an `Array` object of its own whose elements are in the arena. -/
structure ASTBuildHandlerObj (D : Type) where
  allocator : Arena D
  parseStack : ArrayObj

section BuilderInArena

variable {D : Type}

/-- The constructor `ASTBuildHandler(FastAllocator&)`. -/
def ASTBuildHandlerObj.new (malloc : Nat → Bool) (a : Arena D) :
    Outcome (Arena D) (ASTBuildHandlerObj D) :=
  match ArrayObj.new (malloc a.allocator.pages.length) sizeofNodePtr a.allocator
      ArrayObj.INIT_CAPACITY with
  | .ok parseStack alc1 => .ok ⟨⟨alc1, a.mem⟩, parseStack⟩ ⟨alc1, a.mem⟩
  | .throws err alc1 => .throws err ⟨alc1, a.mem⟩
  | .ub => .ub
  | .undetermined => .undetermined

/-- The call `parseStack.pushBack(node)`. -/
def ASTBuildHandlerObj.push (malloc : Nat → Bool) (self : ASTBuildHandlerObj D)
    (arena : Arena D) (node : Ptr) : Outcome (ASTBuildHandlerObj D) Unit :=
  match ArrayObj.pushBackCell malloc sizeofNodePtr self.parseStack arena (.node node) with
  | .ok _ (stack1, arena1) => .ok () ⟨arena1, stack1⟩
  | .throws err (stack1, arena1) => .throws err ⟨arena1, stack1⟩
  | .ub => .ub
  | .undetermined => .undetermined

/-- The statement `parseStack.pushBack(new (allocator) C(...))`, given the new-expression. -/
def ASTBuildHandlerObj.pushNew (malloc : Nat → Bool) (self : ASTBuildHandlerObj D)
    (newNode : Arena D → Outcome (Arena D) Ptr) : Outcome (ASTBuildHandlerObj D) Unit :=
  match newNode self.allocator with
  | .ok node arena1 => self.push malloc arena1 node
  | .throws err arena1 => .throws err ⟨arena1, self.parseStack⟩
  | .ub => .ub
  | .undetermined => .undetermined

/-- The member `ASTBuildHandler::getAST`. -/
def ASTBuildHandlerObj.getAST (self : ASTBuildHandlerObj D) :
    Outcome (ASTBuildHandlerObj D) Ptr :=
  if self.parseStack.sz = 1 then
    match ArrayObj.popBack sizeofNodePtr self.parseStack self.allocator.mem with
    | .ok (.node p) stack1 => .ok p ⟨self.allocator, stack1⟩
    | .ok _ _ => .ub
    | .throws e stack1 => .throws e ⟨self.allocator, stack1⟩
    | .ub => .ub
    | .undetermined => .undetermined
  else .ub

/-- The loop of `ASTBuildHandler::endArrayAction`: `arr->data.pushBack(*iter)` for the `n`
elements of the parse stack from index `i` on. -/
def ASTBuildHandlerObj.arrayLoop (malloc : Nat → Bool) (stack : ArrayObj) (arr : Ptr) :
    Arena D → Nat → Nat → Outcome (Arena D) Unit
  | arena, _, 0 => .ok () arena
  | arena, i, n + 1 =>
    match arena.mem (stack.slot sizeofNodePtr i) with
    | .node e =>
      match Arena.pushBack malloc sizeofNodePtr arena (arr.add offsetofData) (.node e) with
      | .ok _ arena1 => ASTBuildHandlerObj.arrayLoop malloc stack arr arena1 (i + 1) n
      | .throws err arena1 => .throws err arena1
      | .ub => .ub
      | .undetermined => .undetermined
    | _ => .ub

/-- The shrink of the parse stack and the push of the new node that end `endArrayAction` and
`endObjectAction`. -/
def ASTBuildHandlerObj.replaceTop (malloc : Nat → Bool) (self : ASTBuildHandlerObj D)
    (arena : Arena D) (size : Nat) (node : Ptr) : Outcome (ASTBuildHandlerObj D) Unit :=
  match self.parseStack.shrink size with
  | .ok _ stack1 => ASTBuildHandlerObj.push malloc ⟨arena, stack1⟩ arena node
  | .throws e stack1 => .throws e ⟨arena, stack1⟩
  | .ub => .ub
  | .undetermined => .undetermined

/-- The member `ASTBuildHandler::endArrayAction`. -/
def ASTBuildHandlerObj.endArrayAction (malloc : Nat → Bool) (self : ASTBuildHandlerObj D)
    (size : Nat) : Outcome (ASTBuildHandlerObj D) Unit :=
  match NodeObj.newArrayNode malloc self.allocator with
  | .ok arr arena1 =>
    if size > self.parseStack.sz then .ub
    else
      match ASTBuildHandlerObj.arrayLoop malloc self.parseStack arr arena1
          (self.parseStack.sz - size) size with
      | .ok _ arena2 => self.replaceTop malloc arena2 size arr
      | .throws err arena2 => .throws err ⟨arena2, self.parseStack⟩
      | .ub => .ub
      | .undetermined => .undetermined
  | .throws err arena1 => .throws err ⟨arena1, self.parseStack⟩
  | .ub => .ub
  | .undetermined => .undetermined

/-- The loop of `ASTBuildHandler::endObjectAction`:
`obj->data.set(static_cast<StringNode*>(*iter)->data, *(iter + 1))` for the `n` pairs of
elements of the parse stack from index `i` on. -/
def ASTBuildHandlerObj.objectLoop (malloc : Nat → Bool) (stack : ArrayObj) (obj : Ptr) :
    Arena D → Nat → Nat → Outcome (Arena D) Unit
  | arena, _, 0 => .ok () arena
  | arena, i, n + 1 =>
    match arena.mem (stack.slot sizeofNodePtr i), arena.mem (stack.slot sizeofNodePtr (i + 1)) with
    | .node k, .node v =>
      match arena.mem (k.add offsetofData) with
      | .string key =>
        match Arena.set malloc arena (obj.add offsetofEntries) key v with
        | .ok _ arena1 => ASTBuildHandlerObj.objectLoop malloc stack obj arena1 (i + 2) n
        | .throws err arena1 => .throws err arena1
        | .ub => .ub
        | .undetermined => .undetermined
      | _ => .ub
    | _, _ => .ub

/-- The member `ASTBuildHandler::endObjectAction`. -/
def ASTBuildHandlerObj.endObjectAction (malloc : Nat → Bool) (self : ASTBuildHandlerObj D)
    (size : Nat) : Outcome (ASTBuildHandlerObj D) Unit :=
  let size2 := (size * 2) % SIZE_RANGE
  match NodeObj.newObjectNode malloc self.allocator with
  | .ok obj arena1 =>
    if size2 > self.parseStack.sz then .ub
    else
      match ASTBuildHandlerObj.objectLoop malloc self.parseStack obj arena1
          (self.parseStack.sz - size2) (size2 / 2) with
      | .ok _ arena2 => self.replaceTop malloc arena2 size2 obj
      | .throws err arena2 => .throws err ⟨arena2, self.parseStack⟩
      | .ub => .ub
      | .undetermined => .undetermined
  | .throws err arena1 => .throws err ⟨arena1, self.parseStack⟩
  | .ub => .ub
  | .undetermined => .undetermined

/-- One call of the parser on the handler. -/
def ASTBuildHandlerObj.handle (malloc : Nat → Bool) (text : Nat → Byte)
    (self : ASTBuildHandlerObj D) : Call D → Outcome (ASTBuildHandlerObj D) Unit
  | .stringAction b e =>
    self.pushNew malloc (fun arena => NodeObj.newStringNode malloc text arena b e)
  | .numberAction val => self.pushNew malloc (fun arena => NodeObj.newNumberNode malloc arena val)
  | .boolAction b => self.pushNew malloc (fun arena => NodeObj.newBoolNode malloc arena b)
  | .nullAction => self.pushNew malloc (fun arena => NodeObj.newNullNode malloc arena)
  | .beginArrayAction => .ok () self
  | .endArrayAction size => self.endArrayAction malloc size
  | .beginObjectAction => .ok () self
  | .endObjectAction size => self.endObjectAction malloc size

/-- The calls of the parser, in order; a call that throws ends the run. -/
def ASTBuildHandlerObj.feed (malloc : Nat → Bool) (text : Nat → Byte)
    (self : ASTBuildHandlerObj D) : List (Call D) → Outcome (ASTBuildHandlerObj D) Unit
  | [] => .ok () self
  | c :: cs =>
    match self.handle malloc text c with
    | .ok _ next => ASTBuildHandlerObj.feed malloc text next cs
    | .throws e next => .throws e next
    | .ub => .ub
    | .undetermined => .undetermined

/-- The member `JSON::parse` on the arena `alc`.  `calls` stands for the calls that
`Parser<TextScanner, ASTBuildHandler>(TextScanner(content), handler).parseValue()` makes on
the handler for the text `content`, which lies in `text`. -/
def JSONObj.parse (malloc : Nat → Bool) (text : Nat → Byte) (calls : List (Call D))
    (alc : Arena D) : Outcome (Arena D) Ptr :=
  match ASTBuildHandlerObj.new malloc alc with
  | .ok handler _ =>
    match handler.feed malloc text calls with
    | .ok _ handler1 =>
      match handler1.getAST with
      | .ok node handler2 => .ok node handler2.allocator
      | .throws e handler2 => .throws e handler2.allocator
      | .ub => .ub
      | .undetermined => .undetermined
    | .throws e handler1 => .throws e handler1.allocator
    | .ub => .ub
    | .undetermined => .undetermined
  | .throws e alc1 => .throws e alc1
  | .ub => .ub
  | .undetermined => .undetermined

/-- The member `JSON::setKey`. -/
def JSONObj.setKey (malloc : Nat → Bool) (text : Nat → Byte) (arena : Arena D) (node : Ptr)
    (k : List Byte) (content : List (Call D)) : Outcome (Arena D) Unit :=
  match JSONObj.parse malloc text content arena with
  | .ok parsed arena1 => NodeObj.setKey malloc arena1 node k parsed
  | .throws e arena1 => .throws e arena1
  | .ub => .ub
  | .undetermined => .undetermined

/-- The member `JSON::setAt`. -/
def JSONObj.setAt (malloc : Nat → Bool) (text : Nat → Byte) (arena : Arena D) (node : Ptr)
    (idx : Nat) (content : List (Call D)) : Outcome (Arena D) Unit :=
  match JSONObj.parse malloc text content arena with
  | .ok parsed arena1 => NodeObj.setAt arena1 node idx parsed
  | .throws e arena1 => .throws e arena1
  | .ub => .ub
  | .undetermined => .undetermined

end BuilderInArena

/-! ## Scenarios on the documents in the arena -/

/-- The memory of the caller, where the texts that are parsed lie, taken with the letter `a`
in every byte: the strings of the documents below are runs of that letter. -/
def textOfAs : Nat → Byte := fun _ => 'a'

/-- A `malloc` that returns a block at every call. -/
def mallocGrants : Nat → Bool := fun _ => true

/-- The call has undefined behaviour. -/
def Outcome.isUb {σ α : Type} : Outcome σ α → Bool
  | .ub => true
  | _ => false

/-- The calls `numberAction(lo)`, ..., `numberAction(lo + n - 1)`. -/
def Call.numbers (lo n : Nat) : List (Call Nat) :=
  (List.range n).map (fun i => Call.numberAction (lo + i))

/-- What `asDouble` returns on the node behind each of the pointers. -/
def NodeObj.numbers (arena : Arena Nat) (nodes : List (Cell Nat)) : List (Res Nat) :=
  nodes.map (fun c =>
    match c with
    | .node p => NodeObj.asDouble arena p
    | _ => .ub)

/-- The class of the node behind each of the pointers, by its vtable pointer; `none` where
the cell a pointer leads to is no vtable pointer. -/
def NodeObj.classes (arena : Arena Nat) (nodes : List (Cell Nat)) : List (Option NodeClass) :=
  nodes.map (fun c =>
    match c with
    | .node p => NodeObj.classOf arena p
    | _ => none)

/-- What a caller sees of an array node: what `size` returns and, index by index, the class
of the node `at` returns and what `asDouble` returns on it. -/
structure ArrayView where
  size : Res Nat
  classes : List (Option NodeClass)
  numbers : List (Res Nat)
  deriving DecidableEq

/-- The view of the array node at `root`, over the indices below `n`. -/
def ArrayView.of (arena : Arena Nat) (root : Ptr) (n : Nat) : ArrayView :=
  let nodes : List (Cell Nat) := (List.range n).map (fun idx =>
    match NodeObj.at_ arena root idx with
    | .ok p => Cell.node p
    | _ => Cell.raw)
  ⟨NodeObj.size arena root, NodeObj.classes arena nodes, NodeObj.numbers arena nodes⟩

/-- The calls of the parser for the array `["a...a", null, null, null, 4, 5, ...]` of a
string of 16252 bytes, which lies at the addresses `2` to `16253` of the text, three nulls
and the `n` numbers from `4` on. -/
def longArrayCalls (n : Nat) : List (Call Nat) :=
  [.beginArrayAction, .stringAction 2 16254, .nullAction, .nullAction, .nullAction] ++
    Call.numbers 4 n ++ [.endArrayAction (4 + n)]

/-- The document of `longArrayCalls n` parsed on a fresh arena: the node `parse` returns and
the arena; `none` when `parse` does not return. -/
def longArrayParsed (n : Nat) : Option (Ptr × Arena Nat) :=
  match JSONObj.parse mallocGrants textOfAs (longArrayCalls n) Arena.fresh with
  | .ok root arena => some (root, arena)
  | _ => none

/-- The view of the array parsed from `longArrayCalls n`. -/
def longArrayView (n : Nat) : Option ArrayView :=
  (longArrayParsed n).map (fun s => ArrayView.of s.2 s.1 (4 + n))

/-- The node `parse` returns for `longArrayCalls n`, the allocator it leaves, what `at(idx)`
returns on the node, and the cell at the address returned. -/
def longArrayElement (n idx : Nat) : Option (Ptr × FastAllocator × Res Ptr × Cell Nat) :=
  (longArrayParsed n).map (fun s =>
    match NodeObj.at_ s.2 s.1 idx with
    | .ok p => (s.1, s.2.allocator, .ok p, s.2.mem p)
    | r => (s.1, s.2.allocator, r, .raw))

/-- What is seen of the parse stack of a builder: the array object, its elements, the class
of the node behind each element and what `asDouble` returns on it. -/
structure StackView where
  parseStack : ArrayObj
  elements : List (Cell Nat)
  classes : List (Option NodeClass)
  numbers : List (Res Nat)
  deriving DecidableEq

/-- The view of the parse stack of the builder. -/
def StackView.of (self : ASTBuildHandlerObj Nat) : StackView :=
  let elements := self.parseStack.elements sizeofNodePtr self.allocator.mem
  ⟨self.parseStack, elements, NodeObj.classes self.allocator elements,
    NodeObj.numbers self.allocator elements⟩

/-- The builder, made on a fresh arena, after the calls of the parser for the start
`["a...a", null, null, null, 4, ..., 18, ` of an array, for its twentieth element, whose
calls are `last`, and for the opening brace of an object that follows: twenty nodes are on
the parse stack, and `endObjectAction(0)` is the next call when the object is empty. -/
def fullStack (last : List (Call Nat)) : Option (ASTBuildHandlerObj Nat) :=
  match ASTBuildHandlerObj.new mallocGrants Arena.fresh with
  | .ok handler _ =>
    match handler.feed mallocGrants textOfAs
        ([.beginArrayAction, .stringAction 2 16254, .nullAction, .nullAction, .nullAction] ++
          Call.numbers 4 15 ++ last ++ [.beginObjectAction]) with
    | .ok _ handler1 => some handler1
    | _ => none
  | _ => none

/-- The view of the parse stack of the builder of `fullStack`. -/
def fullStackView (last : List (Call Nat)) : Option StackView :=
  (fullStack last).map StackView.of

/-- The view of the parse stack after `endObjectAction(0)` on the builder of `fullStack`;
`none` when the call does not return. -/
def fullStackThenObject (last : List (Call Nat)) : Option StackView :=
  match fullStack last with
  | some handler =>
    match handler.endObjectAction mallocGrants 0 with
    | .ok _ handler1 => some (StackView.of handler1)
    | _ => none
  | none => none

/-- The allocator of the builder of `fullStack`, and whether `endObjectAction(0)` on it has
undefined behaviour. -/
def fullStackObjectIsUb (last : List (Call Nat)) : Option (FastAllocator × Bool) :=
  (fullStack last).map (fun handler =>
    (handler.allocator.allocator, (handler.endObjectAction mallocGrants 0).isUb))

/-- A document with an array node and an object node in it, in its arena. -/
structure Document where
  root : Ptr
  obj : Ptr
  arena : Arena Nat

/-- What a caller sees of the document: the allocator, what `size` returns on the array and
on the object, what `keys` returns on the object, and the cell at the address of the array
node. -/
structure DocumentView where
  allocator : FastAllocator
  rootSize : Res Nat
  objectSize : Res Nat
  objectKeys : Res (List (List Byte))
  rootCell : Cell Nat
  deriving DecidableEq

/-- The view of the document. -/
def DocumentView.of (doc : Document) : DocumentView :=
  ⟨doc.arena.allocator, NodeObj.size doc.arena doc.root, NodeObj.size doc.arena doc.obj,
    NodeObj.fields doc.arena doc.obj, doc.arena.mem doc.root⟩

/-- A run of `JSON::setKey` calls on the node, one per key, each with the text `1`. -/
def JSONObj.setKeys (malloc : Nat → Bool) (text : Nat → Byte) (node : Ptr) :
    Arena Nat → List (List Byte) → Outcome (Arena Nat) Unit
  | arena, [] => .ok () arena
  | arena, k :: ks =>
    match JSONObj.setKey malloc text arena node k [.numberAction 1] with
    | .ok _ arena1 => JSONObj.setKeys malloc text node arena1 ks
    | .throws e arena1 => .throws e arena1
    | .ub => .ub
    | .undetermined => .undetermined

/-- The ten keys `a`, ..., `j`. -/
def tenKeys : List (List Byte) :=
  ["a".toList, "b".toList, "c".toList, "d".toList, "e".toList, "f".toList, "g".toList,
    "h".toList, "i".toList, "j".toList]

/-- The document `[1, 2, 3, 4, 5, null, {}]` parsed on a fresh arena, then `setKey(k, "1")`
on its object, `at(6)`, for the ten keys `a`, ..., `j`. -/
def objectWithTenKeys : Option Document :=
  match JSONObj.parse mallocGrants textOfAs
      ([.beginArrayAction] ++ Call.numbers 1 5 ++
        [.nullAction, .beginObjectAction, .endObjectAction 0, .endArrayAction 7])
      Arena.fresh with
  | .ok root arena =>
    match NodeObj.at_ arena root 6 with
    | .ok obj =>
      match JSONObj.setKeys mallocGrants textOfAs obj arena tenKeys with
      | .ok _ arena1 => some ⟨root, obj, arena1⟩
      | _ => none
    | _ => none
  | _ => none

/-- The document of `objectWithTenKeys` after `setKey("z", "1")` on its object, an eleventh
key; `none` when the call does not return. -/
def objectWithElevenKeys : Option Document :=
  match objectWithTenKeys with
  | some doc =>
    match JSONObj.setKey mallocGrants textOfAs doc.arena doc.obj "z".toList
        [.numberAction 1] with
    | .ok _ arena1 => some ⟨doc.root, doc.obj, arena1⟩
    | _ => none
  | none => none

/-- The document of `objectWithTenKeys` after `setAt(0, s)` on its array, `s` the text of a
string of 14504 bytes (at the addresses `1` to `14504` of the text). -/
def objectInFullPage : Option Document :=
  match objectWithTenKeys with
  | some doc =>
    match JSONObj.setAt mallocGrants textOfAs doc.arena doc.root 0 [.stringAction 1 14505] with
    | .ok _ arena1 => some ⟨doc.root, doc.obj, arena1⟩
    | _ => none
  | none => none

/-- Whether `setKey("z", "1")`, an eleventh key, on the object of `objectInFullPage` has
undefined behaviour. -/
def eleventhKeyInFullPageIsUb : Option Bool :=
  objectInFullPage.map (fun doc =>
    (JSONObj.setKey mallocGrants textOfAs doc.arena doc.obj "z".toList
      [.numberAction 1]).isUb)

/-- The document `{}` parsed on a fresh arena, then `setKey("a", "1")` and
`setKey("a", "2")` on it: what `size` returns, what `keys` returns and what
`key("a").asDouble()` returns. -/
def emptyObjectSetTwice : Option (Res Nat × Res (List (List Byte)) × Res Nat) :=
  match JSONObj.parse mallocGrants textOfAs [.beginObjectAction, .endObjectAction 0]
      (Arena.fresh : Arena Nat) with
  | .ok obj arena =>
    match JSONObj.setKey mallocGrants textOfAs arena obj "a".toList [.numberAction 1] with
    | .ok _ arena1 =>
      match JSONObj.setKey mallocGrants textOfAs arena1 obj "a".toList [.numberAction 2] with
      | .ok _ arena2 =>
        some (NodeObj.size arena2 obj, NodeObj.fields arena2 obj,
          match NodeObj.key arena2 obj "a".toList with
          | .ok p => NodeObj.asDouble arena2 p
          | .throws e => .throws e
          | .ub => .ub
          | .undetermined => .undetermined)
      | _ => none
    | _ => none
  | _ => none

/-- Two dictionaries that are objects of their own, with their entries in one arena, and a
pointer `v` into the arena. -/
structure TwoDictionaries where
  dictA : ArrayObj
  dictB : ArrayObj
  arena : Arena Nat
  v : Ptr

/-- A run of `Dictionary::set` calls, one per key, each with the value `value`. -/
def DictionaryObj.setAll (malloc : Nat → Bool) (value : Ptr) :
    ArrayObj → Arena Nat → List (List Byte) → Outcome (ArrayObj × Arena Nat) Unit
  | self, arena, [] => .ok () (self, arena)
  | self, arena, k :: ks =>
    match DictionaryObj.set malloc self arena (.outside k) value with
    | .ok _ (self1, arena1) => DictionaryObj.setAll malloc value self1 arena1 ks
    | .throws e s => .throws e s
    | .ub => .ub
    | .undetermined => .undetermined

/-- Two dictionaries in one arena.  After `alloc(216)`, whose block `v` points to, the
dictionaries `A` and `B` are constructed, in this order; `set` is called on `B` for the keys
`k` and `x` and on `A` for the ten keys `a`, ..., `j`, each with the value `v`. -/
def twoDictionaries : Option TwoDictionaries :=
  match Arena.alloc mallocGrants (Arena.fresh : Arena Nat) 216 with
  | .ok v arena1 =>
    match ArrayObj.new true sizeofPair arena1.allocator ArrayObj.INIT_CAPACITY with
    | .ok dictA alc2 =>
      match ArrayObj.new true sizeofPair alc2 ArrayObj.INIT_CAPACITY with
      | .ok dictB alc3 =>
        match DictionaryObj.setAll mallocGrants v dictB ⟨alc3, arena1.mem⟩
            ["k".toList, "x".toList] with
        | .ok _ (dictB1, arena4) =>
          match DictionaryObj.setAll mallocGrants v dictA arena4 tenKeys with
          | .ok _ (dictA1, arena5) => some ⟨dictA1, dictB1, arena5, v⟩
          | _ => none
        | _ => none
      | _ => none
    | _ => none
  | _ => none

/-- The two dictionaries after `set("x", w)` on `A`, an eleventh key, with `w` the pointer
`v + 8`; `none` when the call does not return. -/
def twoDictionariesThenSet : Option TwoDictionaries :=
  match twoDictionaries with
  | some s =>
    match DictionaryObj.set mallocGrants s.dictA s.arena (.outside "x".toList) (s.v.add 8) with
    | .ok _ (dictA1, arena1) => some ⟨dictA1, s.dictB, arena1, s.v⟩
    | _ => none
  | none => none

/-- What `keys` returns on `A` and on `B`. -/
def TwoDictionaries.keys (s : TwoDictionaries) :
    Res (List (List Byte)) × Res (List (List Byte)) :=
  (DictionaryObj.keys s.arena.mem s.dictA, DictionaryObj.keys s.arena.mem s.dictB)

/-- The two array objects, the allocator, and the entries of `B` as the memory holds them. -/
def TwoDictionaries.layout (s : TwoDictionaries) :
    ArrayObj × ArrayObj × FastAllocator × List (Cell Nat) :=
  (s.dictA, s.dictB, s.arena.allocator, s.dictB.elements sizeofPair s.arena.mem)

/-- What `get` returns on `B` for the keys `k` and `x`. -/
def TwoDictionaries.getOnB (s : TwoDictionaries) : Res Ptr × Res Ptr :=
  (DictionaryObj.get s.arena.mem s.dictB (.outside "k".toList),
    DictionaryObj.get s.arena.mem s.dictB (.outside "x".toList))

/-! ## Lemmas on the containers -/

section ContainerLemmas

variable {T : Type}

theorem String.eqLoop_iff (a b : String) (h : a.length = b.length) :
    String.eqLoop a b = true ↔ a = b := by
  induction a generalizing b with
  | nil =>
    cases b with
    | nil => simp [String.eqLoop]
    | cons y ys => simp at h
  | cons x xs ih =>
    cases b with
    | nil => simp at h
    | cons y ys =>
      have hl : xs.length = ys.length := by simpa using h
      by_cases hxy : x = y
      · simp [String.eqLoop, hxy, ih ys hl]
      · simp [String.eqLoop, hxy]

theorem String.eq_iff (a b : String) : String.eq a b = true ↔ a = b := by
  unfold String.eq
  by_cases h : a.length = b.length
  · simp [h, String.eqLoop_iff a b h]
  · have : a ≠ b := fun hab => h (by rw [hab])
    simp [h, this]

theorem String.eq_false_iff (a b : String) : String.eq a b = false ↔ a ≠ b := by
  rw [← Bool.not_eq_true, String.eq_iff]

theorem String.toSTLString_eq (s : String) : String.toSTLString s = s := by
  cases s <;> rfl

theorem String.copy_eq (range : List Byte) : String.copy range = range := by
  cases range <;> simp [String.copy]

theorem Array.shiftLeft_length (n : Nat) (data : Array T) (i : Nat) :
    (Array.shiftLeft data i n).length = data.length := by
  induction n generalizing data i with
  | zero => rfl
  | succ n ih =>
    simp only [Array.shiftLeft]
    cases hx : data.get? i with
    | none => rfl
    | some x => simp [ih]

/-- The elements after `n` rounds of the shifting loop started at index `m + 1`, where the loop
runs to the end of the array. -/
theorem Array.shiftLeft_getElem? (n : Nat) (data : Array T) (m : Nat)
    (hn : m + 1 + n = data.length) (k : Nat) :
    (Array.shiftLeft data (m + 1) n)[k]? =
      if k < m then data[k]? else if k + 1 < data.length then data[k + 1]? else data[k]? := by
  induction n generalizing data m with
  | zero =>
    simp only [Array.shiftLeft]
    by_cases h1 : k < m
    · rw [if_pos h1]
    · rw [if_neg h1, if_neg (by omega)]
  | succ n ih =>
    have hlt : m + 1 < data.length := by omega
    have hm : m < data.length := by omega
    simp only [Array.shiftLeft, List.get?_eq_getElem?, List.getElem?_eq_getElem hlt,
      Nat.add_sub_cancel]
    rw [ih (data.set m data[m + 1]) (m + 1) (by rw [List.length_set]; omega), List.length_set]
    rcases Nat.lt_trichotomy k m with h | h | h
    · rw [if_pos (by omega), if_pos h, List.getElem?_set_ne (by omega)]
    · subst h
      rw [if_pos (by omega), if_neg (by omega), if_pos hlt, List.getElem?_set_self,
        List.getElem?_eq_getElem hlt]
      simp [hm]
    · rw [if_neg (by omega : ¬ k < m + 1), if_neg (by omega : ¬ k < m),
        List.getElem?_set_ne (by omega), List.getElem?_set_ne (by omega)]

/-- Within bounds `Array::remove` erases the element at the index and keeps the others in
order. -/
theorem Array.remove_of_lt (data : Array T) (idx : Nat) (h : idx < data.length) :
    Array.remove data idx = .ok () (data.eraseIdx idx) := by
  have hge : ¬ (idx ≥ data.length) := by omega
  simp only [Array.remove, hge, if_false]
  congr 1
  apply List.ext_getElem?
  intro k
  rw [List.dropLast_eq_take, List.getElem?_take, Array.shiftLeft_length,
    Array.shiftLeft_getElem? _ _ _ (by omega), List.getElem?_eraseIdx]
  by_cases h1 : k < idx
  · rw [if_pos (by omega), if_pos h1, if_pos h1]
  · by_cases h2 : k < data.length - 1
    · rw [if_pos h2, if_neg h1, if_neg h1, if_pos (by omega)]
    · rw [if_neg h2, if_neg h1, List.getElem?_eq_none (by omega)]

theorem Array.remove_of_ge (data : Array T) (idx : Nat) (h : data.length ≤ idx) :
    Array.remove data idx = .throws .IndexOutOfRangeError data := by
  simp [Array.remove, h]

theorem Array.index_of_lt (data : Array T) (idx : Nat) (h : idx < data.length) :
    Array.index data idx = .ok (data.get ⟨idx, h⟩) := by
  simp [Array.index, List.getElem?_eq_getElem h]

theorem Array.index_of_ge (data : Array T) (idx : Nat) (h : data.length ≤ idx) :
    Array.index data idx = .throws .IndexOutOfRangeError := by
  simp [Array.index, List.getElem?_eq_none h]

/-- The search of `Dictionary::find` looks at the keys only. -/
theorem Dictionary.findFrom_congr (key : String) (data data1 : Dictionary T) (r : Int)
    (h : data.map Prod.fst = data1.map Prod.fst) :
    Dictionary.findFrom key data r = Dictionary.findFrom key data1 r := by
  induction data generalizing data1 r with
  | nil =>
    cases data1 with
    | nil => rfl
    | cons e1 rest1 => simp at h
  | cons e rest ih =>
    cases data1 with
    | nil => simp at h
    | cons e1 rest1 =>
      simp only [List.map_cons, List.cons.injEq] at h
      simp only [Dictionary.findFrom, h.1, ih rest1 (r + 1) h.2]

theorem Dictionary.findFrom_absent (key : String) (data : Dictionary T) (r : Int)
    (h : ∀ e ∈ data, e.1 ≠ key) : Dictionary.findFrom key data r = -1 := by
  induction data generalizing r with
  | nil => rfl
  | cons e rest ih =>
    have h3 : String.eq e.1 key = false :=
      (String.eq_false_iff _ _).2 (h e (List.mem_cons_self _ _))
    simp only [Dictionary.findFrom, h3]
    exact ih (r + 1) (fun e1 he1 => h e1 (List.mem_cons_of_mem _ he1))

/-- A key that occurs is found at its first occurrence. -/
theorem Dictionary.findFrom_present (key : String) (data : Dictionary T) (r : Int)
    (h : ∃ e ∈ data, e.1 = key) :
    ∃ (i : Nat) (e : String × T), Dictionary.findFrom key data r = r + i ∧
      data.get? i = some e ∧ e.1 = key ∧
      ∀ j e1, j < i → data.get? j = some e1 → e1.1 ≠ key := by
  induction data generalizing r with
  | nil => obtain ⟨e, he, _⟩ := h; cases he
  | cons e rest ih =>
    by_cases he : e.1 = key
    · refine ⟨0, e, ?_, rfl, he, ?_⟩
      · simp [Dictionary.findFrom, (String.eq_iff _ _).2 he]
      · intro j e1 hj; omega
    · have h2 : ∃ e1 ∈ rest, e1.1 = key := by
        obtain ⟨e1, he1, hk⟩ := h
        rcases List.mem_cons.1 he1 with h1 | h1
        · exact absurd (h1 ▸ hk) he
        · exact ⟨e1, h1, hk⟩
      obtain ⟨i, e1, hf, hg, hk, hfirst⟩ := ih (r + 1) h2
      refine ⟨i + 1, e1, ?_, by simpa using hg, hk, ?_⟩
      · simp only [Dictionary.findFrom, (String.eq_false_iff _ _).2 he, hf,
          Bool.false_eq_true, if_false]
        push_cast
        ring
      · intro j e2 hj hg2
        cases j with
        | zero =>
          simp at hg2
          rw [← hg2]; exact he
        | succ j =>
          exact hfirst j e2 (by omega) (by simpa using hg2)

theorem Dictionary.mem_keys_iff (key : String) (data : Dictionary T) :
    key ∈ data.map Prod.fst ↔ ∃ e ∈ data, e.1 = key := by
  rw [List.mem_map]

theorem Dictionary.not_mem_keys_iff (key : String) (data : Dictionary T) :
    key ∉ data.map Prod.fst ↔ ∀ e ∈ data, e.1 ≠ key := by
  rw [List.mem_map]
  constructor
  · intro h e he hk; exact h ⟨e, he, hk⟩
  · rintro h ⟨e, he, hk⟩; exact h e he hk

theorem Dictionary.find_absent (key : String) (data : Dictionary T)
    (h : key ∉ data.map Prod.fst) : Dictionary.find data key = -1 :=
  Dictionary.findFrom_absent key data 0 ((Dictionary.not_mem_keys_iff key data).1 h)

theorem Dictionary.find_present (key : String) (data : Dictionary T)
    (h : key ∈ data.map Prod.fst) :
    ∃ (i : Nat) (e : String × T), Dictionary.find data key = (i : Int) ∧
      data.get? i = some e ∧ e.1 = key ∧
      ∀ j e1, j < i → data.get? j = some e1 → e1.1 ≠ key := by
  obtain ⟨i, e, hf, rest⟩ :=
    Dictionary.findFrom_present key data 0 ((Dictionary.mem_keys_iff key data).1 h)
  exact ⟨i, e, by simpa [Dictionary.find] using hf, rest⟩

theorem Dictionary.keys_set (data : Dictionary T) (i : Nat) (e : String × T) (v : T)
    (hg : data.get? i = some e) :
    (List.set data i (e.1, v)).map Prod.fst = data.map Prod.fst := by
  rw [List.get?_eq_getElem?] at hg
  rw [List.map_set]
  apply List.ext_getElem?
  intro j
  by_cases hij : i = j
  · subst hij
    rw [List.getElem?_set_self', List.getElem?_map, hg]
    rfl
  · rw [List.getElem?_set_ne hij]

/-- A key that occurs: the entry `e` at its first occurrence `i` is the one `get` reads and the
one `set` and `remove` change. -/
theorem Dictionary.ops_present (data : Dictionary T) (key : String)
    (h : key ∈ data.map Prod.fst) :
    ∃ (i : Nat) (e : String × T), data.get? i = some e ∧ e.1 = key ∧
      (∀ j e1, j < i → data.get? j = some e1 → e1.1 ≠ key) ∧
      Dictionary.get data key = .ok e.2 ∧
      (∀ v, Dictionary.set data key v = .ok () (List.set data i (key, v))) ∧
      Dictionary.remove data key = .ok () (data.eraseIdx i) := by
  obtain ⟨i, e, hf, hg, hk, hfirst⟩ := Dictionary.find_present key data h
  have hne : ¬ ((i : Int) = -1) := by omega
  have hlt : i < data.length := by
    by_contra hc
    rw [List.get?_eq_none.2 (Nat.le_of_not_lt hc)] at hg
    cases hg
  have hg1 : data[i]? = some e := by rw [← List.get?_eq_getElem?]; exact hg
  refine ⟨i, e, hg, hk, hfirst, ?_, ?_, ?_⟩
  · simp [Dictionary.get, hf, hne, Array.index, hg1]
  · intro v
    simp [Dictionary.set, hf, hne, Array.index, hg1, hk]
  · simp only [Dictionary.remove, hf, beq_iff_eq, hne, if_false, Int.toNat_ofNat]
    exact Array.remove_of_lt data i hlt

/-- A key that does not occur: `get` and `remove` throw, and `set` appends the entry while the
array of the entries has room. -/
theorem Dictionary.ops_absent (data : Dictionary T) (key : String)
    (h : key ∉ data.map Prod.fst) :
    Dictionary.get data key = .throws .IndexOutOfRangeError ∧
    (data.length < Array.INIT_CAPACITY →
      ∀ v, Dictionary.set data key v = .ok () (data ++ [(key, v)])) ∧
    Dictionary.remove data key = .throws .IndexOutOfRangeError data := by
  have hf := Dictionary.find_absent key data h
  refine ⟨?_, ?_, ?_⟩
  · simp [Dictionary.get, hf]
  · intro hroom v; simp [Dictionary.set, hf, Array.pushBack, hroom]
  · simp [Dictionary.remove, hf]

/-- After `set` on a key that occurs, the keys are where they were and `get` returns the new
value. -/
theorem Dictionary.set_present (data : Dictionary T) (key : String) (v : T)
    (h : key ∈ data.map Prod.fst) :
    ∃ data1, Dictionary.set data key v = .ok () data1 ∧
      data1.map Prod.fst = data.map Prod.fst ∧ Dictionary.get data1 key = .ok v := by
  obtain ⟨i, e, hg, hk, hfirst, _, hset, _⟩ := Dictionary.ops_present data key h
  have hkeys : (List.set data i (key, v)).map Prod.fst = data.map Prod.fst := by
    rw [← hk]; exact Dictionary.keys_set data i e v hg
  refine ⟨List.set data i (key, v), hset v, hkeys, ?_⟩
  obtain ⟨i1, e1, hg1, hk1, hfirst1, hget1, _, _⟩ :=
    Dictionary.ops_present (List.set data i (key, v)) key (hkeys ▸ h)
  rw [hget1]
  have hlt : i < data.length := by
    by_contra hc
    rw [List.get?_eq_none.2 (Nat.le_of_not_lt hc)] at hg
    cases hg
  have hgi : (List.set data i (key, v)).get? i = some (key, v) := by
    rw [List.get?_eq_getElem?, List.getElem?_set_self hlt]
  rcases Nat.lt_trichotomy i1 i with hlt1 | heq | hgt
  · have hg2 : data.get? i1 = some e1 := by
      rw [List.get?_eq_getElem?] at hg1 ⊢
      rwa [List.getElem?_set_ne (by omega)] at hg1
    exact absurd hk1 (hfirst i1 e1 hlt1 hg2)
  · subst heq
    rw [hgi] at hg1
    cases hg1
    rfl
  · exact absurd rfl (hfirst1 i (key, v) hgt hgi)

end ContainerLemmas

/-! ## The claims -/

section Claims

variable {D : Type}

theorem ASTBuildHandler.getAST_single (alc : Heap D) (node : NodeRef) :
    ASTBuildHandler.getAST ⟨alc, [node]⟩ = .ok node ⟨alc, []⟩ := by
  simp [ASTBuildHandler.getAST, Array.size, Array.popBack]

theorem ASTBuildHandler.getAST_of_size_ne_one (self : ASTBuildHandler D)
    (h : Array.size self.parseStack ≠ 1) : self.getAST = .ub := by
  simp [ASTBuildHandler.getAST, h]

/-- C1: with exactly one node on the parse stack `getAST` returns that node.  With two nodes
on it, as after the calls `numberAction(1)`, `numberAction(2)` that the text `1 2` stands for,
and with none, `getAST` does not fail with `ParseError`: the exception object is built and
dropped without `throw`, and the function ends without returning a value. -/
theorem getAST_throws_nothing :
    ASTBuildHandler.getAST (⟨[.NumberNode 1], [0]⟩ : ASTBuildHandler Nat) =
        .ok 0 ⟨[.NumberNode 1], []⟩ ∧
    (ASTBuildHandler.new ([] : Heap Nat)).feed [.number 1, .number 2] =
        .ok () ⟨[.NumberNode 1, .NumberNode 2], [0, 1]⟩ ∧
    ASTBuildHandler.getAST (⟨[.NumberNode 1, .NumberNode 2], [0, 1]⟩ : ASTBuildHandler Nat) =
        .ub ∧
    ASTBuildHandler.getAST (⟨[.NumberNode 1, .NumberNode 2], [0, 1]⟩ : ASTBuildHandler Nat) ≠
        .throws .ParseError ⟨[.NumberNode 1, .NumberNode 2], [0, 1]⟩ ∧
    ASTBuildHandler.getAST (ASTBuildHandler.new ([] : Heap Nat)) = .ub ∧
    JSON.parse [.number 1, .number 2] ([] : Heap Nat) = .ub := by
  decide

/-- C3: on a node that is not an `ArrayNode`, `at`, `append`, `setAt` and `removeAt` throw
`NotAnArrayError`; on a node that is not an `ObjectNode`, `key`, `setKey`, `removeKey` and
`fields` throw `NotAnObjectError`; `size` throws `NotAnArrayOrObjectError` on a node that is
neither (a number, string, bool or null node) and returns the number of children of an array
or object node.  A throwing call leaves the node as it was.  The node parsed from `5` fails
`at(0)` with `NotAnArrayError`; the node parsed from `[1]` fails `key("x")` with
`NotAnObjectError` and has size `1`. -/
theorem wrong_shape_operations (n : Node D) (idx : Nat) (node : NodeRef) (k : List Byte)
    (v : D) :
    ((∀ data, n ≠ .ArrayNode data) →
      n.at_ idx = .throws .NotAnArrayError ∧
      n.append node = .throws .NotAnArrayError n ∧
      n.setAt idx node = .throws .NotAnArrayError n ∧
      n.removeAt idx = .throws .NotAnArrayError n) ∧
    ((∀ data, n ≠ .ObjectNode data) →
      n.key k = .throws .NotAnObjectError ∧
      n.setKey k node = .throws .NotAnObjectError n ∧
      n.removeKey k = .throws .NotAnObjectError n ∧
      n.fields = .throws .NotAnObjectError) ∧
    ((∀ data, n ≠ .ArrayNode data) → (∀ data, n ≠ .ObjectNode data) →
      n.size = .throws .NotAnArrayOrObjectError) ∧
    (∀ data, n = .ArrayNode data → n.size = .ok data.length) ∧
    (∀ data, n = .ObjectNode data → n.size = .ok data.length) ∧
    (JSON.parse [.number v] ([] : Heap D) = .ok 0 [.NumberNode v] ∧
      JSON.at_ [Node.NumberNode v] 0 0 = .throws .NotAnArrayError) ∧
    (JSON.parse [.beginArray, .number v, .endArray 1] ([] : Heap D) =
        .ok 1 [.NumberNode v, .ArrayNode [0]] ∧
      JSON.key [Node.NumberNode v, .ArrayNode [0]] 1 "x".toList = .throws .NotAnObjectError ∧
      JSON.size [Node.NumberNode v, .ArrayNode [0]] 1 = .ok 1) := by
  refine ⟨?_, ?_, ?_, ?_, ?_, ⟨rfl, rfl⟩, ⟨rfl, rfl, rfl⟩⟩
  · intro h
    cases n with
    | ArrayNode data => exact absurd rfl (h data)
    | _ => exact ⟨rfl, rfl, rfl, rfl⟩
  · intro h
    cases n with
    | ObjectNode data => exact absurd rfl (h data)
    | _ => exact ⟨rfl, rfl, rfl, rfl⟩
  · intro h1 h2
    cases n with
    | ArrayNode data => exact absurd rfl (h1 data)
    | ObjectNode data => exact absurd rfl (h2 data)
    | _ => rfl
  · rintro data rfl; rfl
  · rintro data rfl; rfl

/-- Witness of C3: a number node under the array and object operations and under `size`, an
object node under the array operations, an array node under the object operations and under
`size`. -/
theorem wrong_shape_operations_witness :
    (Node.at_ (Node.NumberNode 5 : Node Nat) 0 = .throws .NotAnArrayError ∧
      Node.append (Node.NumberNode 5 : Node Nat) 7 = .throws .NotAnArrayError (.NumberNode 5) ∧
      Node.setAt (Node.NumberNode 5 : Node Nat) 0 7 = .throws .NotAnArrayError (.NumberNode 5) ∧
      Node.removeAt (Node.NumberNode 5 : Node Nat) 0 =
        .throws .NotAnArrayError (.NumberNode 5)) ∧
    (Node.key (Node.NumberNode 5 : Node Nat) "x".toList = .throws .NotAnObjectError ∧
      Node.setKey (Node.NumberNode 5 : Node Nat) "x".toList 7 =
        .throws .NotAnObjectError (.NumberNode 5) ∧
      Node.removeKey (Node.NumberNode 5 : Node Nat) "x".toList =
        .throws .NotAnObjectError (.NumberNode 5) ∧
      Node.fields (Node.NumberNode 5 : Node Nat) = .throws .NotAnObjectError) ∧
    Node.size (Node.NumberNode 5 : Node Nat) = .throws .NotAnArrayOrObjectError ∧
    Node.at_ (Node.ObjectNode [("x".toList, 3)] : Node Nat) 0 = .throws .NotAnArrayError ∧
    Node.key (Node.ArrayNode [3, 4] : Node Nat) "x".toList = .throws .NotAnObjectError ∧
    Node.size (Node.ArrayNode [3, 4] : Node Nat) = .ok 2 ∧
    Node.size (Node.ObjectNode [("x".toList, 3)] : Node Nat) = .ok 1 :=
  ⟨(wrong_shape_operations (Node.NumberNode 5 : Node Nat) 0 7 "x".toList 5).1
      (fun _ h => by cases h),
    (wrong_shape_operations (Node.NumberNode 5 : Node Nat) 0 7 "x".toList 5).2.1
      (fun _ h => by cases h),
    (wrong_shape_operations (Node.NumberNode 5 : Node Nat) 0 7 "x".toList 5).2.2.1
      (fun _ h => by cases h) (fun _ h => by cases h),
    ((wrong_shape_operations (Node.ObjectNode [("x".toList, 3)] : Node Nat) 0 7 "x".toList 5).1
      (fun _ h => by cases h)).1,
    ((wrong_shape_operations (Node.ArrayNode [3, 4] : Node Nat) 0 7 "x".toList 5).2.1
      (fun _ h => by cases h)).1,
    (wrong_shape_operations (Node.ArrayNode [3, 4] : Node Nat) 0 7 "x".toList 5).2.2.2.1
      [3, 4] rfl,
    (wrong_shape_operations (Node.ObjectNode [("x".toList, 3)] : Node Nat) 0 7 "x".toList
      5).2.2.2.2.1 [("x".toList, 3)] rfl⟩

/-- C4: on every `StringNode`, built from any byte range, `asString` throws
`NotConvertibleError`: the class has `toSTLString`, which returns exactly the bytes of the
range, and does not override the virtual `asString`.  So does `JSON::asString` on the
document parsed from the text `"abc"`. -/
theorem asString_of_string_node (range : List Byte) :
    Node.asString (Node.StringNode (String.copy range) : Node D) =
      .throws .NotConvertibleError ∧
    StringNode.toSTLString (String.copy range) = range ∧
    JSON.parse [.string "abc".toList] ([] : Heap D) = .ok 0 [.StringNode "abc".toList] ∧
    JSON.asString ([.StringNode "abc".toList] : Heap D) 0 = .throws .NotConvertibleError := by
  refine ⟨rfl, ?_, rfl, rfl⟩
  rw [StringNode.toSTLString, String.toSTLString_eq, String.copy_eq]

/-- C5: `asDouble` returns a value exactly on a `NumberNode`, and the value is the one stored;
`asBool` returns a value exactly on a `BoolNode`, and the value is the one stored; `asDouble`
on a node that is not a `NumberNode`, `asBool` on a node that is not a `BoolNode` and
`asString` on a node that is not a `StringNode` throw `NotConvertibleError`; all three throw
it on a null, an array and an object node. -/
theorem scalar_conversions (n : Node D) (items : Array NodeRef)
    (entries : Dictionary NodeRef) :
    (∀ v, n.asDouble = .ok v ↔ n = .NumberNode v) ∧
    ((∀ v, n ≠ .NumberNode v) → n.asDouble = .throws .NotConvertibleError) ∧
    (∀ b, n.asBool = .ok b ↔ n = .BoolNode b) ∧
    ((∀ b, n ≠ .BoolNode b) → n.asBool = .throws .NotConvertibleError) ∧
    ((∀ s, n ≠ .StringNode s) → n.asString = .throws .NotConvertibleError) ∧
    (Node.asDouble (Node.NullNode : Node D) = .throws .NotConvertibleError ∧
      Node.asBool (Node.NullNode : Node D) = .throws .NotConvertibleError ∧
      Node.asString (Node.NullNode : Node D) = .throws .NotConvertibleError) ∧
    (Node.asDouble (Node.ArrayNode items : Node D) = .throws .NotConvertibleError ∧
      Node.asBool (Node.ArrayNode items : Node D) = .throws .NotConvertibleError ∧
      Node.asString (Node.ArrayNode items : Node D) = .throws .NotConvertibleError) ∧
    (Node.asDouble (Node.ObjectNode entries : Node D) = .throws .NotConvertibleError ∧
      Node.asBool (Node.ObjectNode entries : Node D) = .throws .NotConvertibleError ∧
      Node.asString (Node.ObjectNode entries : Node D) = .throws .NotConvertibleError) := by
  refine ⟨?_, ?_, ?_, ?_, fun _ => rfl, ⟨rfl, rfl, rfl⟩, ⟨rfl, rfl, rfl⟩, ⟨rfl, rfl, rfl⟩⟩
  · intro v
    cases n <;> simp [Node.asDouble]
  · intro h
    cases n with
    | NumberNode v => exact absurd rfl (h v)
    | _ => rfl
  · intro b
    cases n <;> simp [Node.asBool]
  · intro h
    cases n with
    | BoolNode b => exact absurd rfl (h b)
    | _ => rfl

/-- Witness of C5: a number node under `asDouble`, `asBool` and `asString`, a bool node under
`asBool` and `asDouble`. -/
theorem scalar_conversions_witness :
    Node.asDouble (Node.NumberNode 5 : Node Nat) = .ok 5 ∧
    Node.asBool (Node.NumberNode 5 : Node Nat) = .throws .NotConvertibleError ∧
    Node.asString (Node.NumberNode 5 : Node Nat) = .throws .NotConvertibleError ∧
    Node.asBool (Node.BoolNode true : Node Nat) = .ok true ∧
    Node.asDouble (Node.BoolNode true : Node Nat) = .throws .NotConvertibleError :=
  ⟨((scalar_conversions (Node.NumberNode 5 : Node Nat) [] []).1 5).2 rfl,
    (scalar_conversions (Node.NumberNode 5 : Node Nat) [] []).2.2.2.1 (fun _ h => by cases h),
    (scalar_conversions (Node.NumberNode 5 : Node Nat) [] []).2.2.2.2.1
      (fun _ h => by cases h),
    ((scalar_conversions (Node.BoolNode true : Node Nat) [] []).2.2.1 true).2 rfl,
    (scalar_conversions (Node.BoolNode true : Node Nat) [] []).2.1 (fun _ h => by cases h)⟩

/-- C7, as stated, fails: on the empty object `key("x")` and `removeKey("x")` throw
`IndexOutOfRangeError`, which is not `KeyNotFound`. -/
theorem key_absent_not_KeyNotFound :
    Node.key (Node.ObjectNode [] : Node Nat) "x".toList = .throws .IndexOutOfRangeError ∧
    Node.key (Node.ObjectNode [] : Node Nat) "x".toList ≠ .throws .KeyNotFound ∧
    Node.removeKey (Node.ObjectNode [] : Node Nat) "x".toList =
      .throws .IndexOutOfRangeError (.ObjectNode []) ∧
    Node.removeKey (Node.ObjectNode [] : Node Nat) "x".toList ≠
      .throws .KeyNotFound (.ObjectNode []) := by
  decide

/-- C7, amended: for every object node and every name that is not one of its keys, `key` and
`removeKey` throw `IndexOutOfRangeError`, and `removeKey` leaves the object as it was; for
every name that is one of its keys both succeed. -/
theorem key_and_removeKey_by_presence (data : Dictionary NodeRef) (name : List Byte) :
    (String.wrap name ∉ data.map Prod.fst →
      Node.key (Node.ObjectNode data : Node D) name = .throws .IndexOutOfRangeError ∧
      Node.removeKey (Node.ObjectNode data : Node D) name =
        .throws .IndexOutOfRangeError (.ObjectNode data)) ∧
    (String.wrap name ∈ data.map Prod.fst →
      (∃ node, Node.key (Node.ObjectNode data : Node D) name = .ok node) ∧
      (∃ data1, Node.removeKey (Node.ObjectNode data : Node D) name =
        .ok () (.ObjectNode data1))) := by
  constructor
  · intro h
    obtain ⟨hget, _, hrem⟩ := Dictionary.ops_absent data (String.wrap name) h
    simp [Node.key, Node.removeKey, hget, hrem]
  · intro h
    obtain ⟨i, e, _, _, _, hget, _, hrem⟩ := Dictionary.ops_present data (String.wrap name) h
    exact ⟨⟨e.2, by simp [Node.key, hget]⟩, ⟨data.eraseIdx i, by simp [Node.removeKey, hrem]⟩⟩

/-- Witness of C7 amended: the object with the keys `a`, `b` under the absent name `c` and the
present name `b`. -/
theorem key_and_removeKey_by_presence_witness :
    (Node.key (Node.ObjectNode [("a".toList, 1), ("b".toList, 2)] : Node Nat) "c".toList =
        .throws .IndexOutOfRangeError ∧
      Node.removeKey (Node.ObjectNode [("a".toList, 1), ("b".toList, 2)] : Node Nat)
          "c".toList =
        .throws .IndexOutOfRangeError (.ObjectNode [("a".toList, 1), ("b".toList, 2)])) ∧
    ((∃ node, Node.key (Node.ObjectNode [("a".toList, 1), ("b".toList, 2)] : Node Nat)
        "b".toList = .ok node) ∧
      (∃ data1, Node.removeKey (Node.ObjectNode [("a".toList, 1), ("b".toList, 2)] : Node Nat)
        "b".toList = .ok () (.ObjectNode data1))) :=
  ⟨(key_and_removeKey_by_presence [("a".toList, 1), ("b".toList, 2)] "c".toList).1
      (by decide),
    (key_and_removeKey_by_presence [("a".toList, 1), ("b".toList, 2)] "b".toList).2
      (by decide)⟩

/-- C8: on every array node of length `n` and for every index `idx >= n`, `at`, `setAt` and
`removeAt` throw `IndexOutOfRangeError` and leave the array as it was; for every `idx < n`,
`at` returns the element at position `idx`. -/
theorem array_index_out_of_range (data : Array NodeRef) (idx : Nat) (node : NodeRef) :
    (data.length ≤ idx →
      Node.at_ (Node.ArrayNode data : Node D) idx = .throws .IndexOutOfRangeError ∧
      Node.setAt (Node.ArrayNode data : Node D) idx node =
        .throws .IndexOutOfRangeError (.ArrayNode data) ∧
      Node.removeAt (Node.ArrayNode data : Node D) idx =
        .throws .IndexOutOfRangeError (.ArrayNode data)) ∧
    (∀ h : idx < data.length,
      Node.at_ (Node.ArrayNode data : Node D) idx = .ok (data.get ⟨idx, h⟩)) := by
  constructor
  · intro h
    refine ⟨Array.index_of_ge data idx h, ?_, ?_⟩
    · simp [Node.setAt, Array.assign, h]
    · simp [Node.removeAt, Array.remove_of_ge data idx h]
  · intro h
    exact Array.index_of_lt data idx h

/-- Witness of C8: the array `[4, 5, 6]` at the indices `3` (its length), `9` and `1`. -/
theorem array_index_out_of_range_witness :
    (Node.at_ (Node.ArrayNode [4, 5, 6] : Node Nat) 3 = .throws .IndexOutOfRangeError ∧
      Node.setAt (Node.ArrayNode [4, 5, 6] : Node Nat) 3 7 =
        .throws .IndexOutOfRangeError (.ArrayNode [4, 5, 6]) ∧
      Node.removeAt (Node.ArrayNode [4, 5, 6] : Node Nat) 3 =
        .throws .IndexOutOfRangeError (.ArrayNode [4, 5, 6])) ∧
    Node.at_ (Node.ArrayNode [4, 5, 6] : Node Nat) 9 = .throws .IndexOutOfRangeError ∧
    Node.at_ (Node.ArrayNode [4, 5, 6] : Node Nat) 1 = .ok 5 :=
  ⟨(array_index_out_of_range [4, 5, 6] 3 7).1 (by decide),
    ((array_index_out_of_range [4, 5, 6] 9 7).1 (by decide)).1,
    (array_index_out_of_range [4, 5, 6] 1 7).2 (by decide)⟩

/-- C9: on every array node with the elements `e0 .. e(n-1)` and for every `idx < n`,
`removeAt(idx)` leaves `e0 .. e(idx-1), e(idx+1) .. e(n-1)`, in that order, `n - 1` elements.
The change is seen through the parent: on the object parsed from an empty object text,
`setKey("foo", [v1, v2, v3, v4])` then `key("foo").removeAt(2)` leave an object whose only key
is `foo`, with the array `[v1, v2, v4]` as its value. -/
theorem removeAt_erases_element [DecidableEq D] (data : Array NodeRef) (idx : Nat)
    (h : idx < data.length) (v1 v2 v3 v4 : D) :
    Node.removeAt (Node.ArrayNode data : Node D) idx =
      .ok () (.ArrayNode (data.take idx ++ data.drop (idx + 1))) ∧
    (data.take idx ++ data.drop (idx + 1)).length = data.length - 1 ∧
    (JSON.parse [.beginObject, .endObject 0] ([] : Heap D) = .ok 0 [.ObjectNode []] ∧
      JSON.setKey [Node.ObjectNode []] 0 "foo".toList
          [.beginArray, .number v1, .number v2, .number v3, .number v4, .endArray 4] =
        .ok () [.ObjectNode [("foo".toList, 5)], .NumberNode v1, .NumberNode v2,
          .NumberNode v3, .NumberNode v4, .ArrayNode [1, 2, 3, 4]] ∧
      JSON.key [Node.ObjectNode [("foo".toList, 5)], .NumberNode v1, .NumberNode v2,
          .NumberNode v3, .NumberNode v4, .ArrayNode [1, 2, 3, 4]] 0 "foo".toList = .ok 5 ∧
      JSON.removeAt [Node.ObjectNode [("foo".toList, 5)], .NumberNode v1, .NumberNode v2,
          .NumberNode v3, .NumberNode v4, .ArrayNode [1, 2, 3, 4]] 5 2 =
        .ok () [.ObjectNode [("foo".toList, 5)], .NumberNode v1, .NumberNode v2,
          .NumberNode v3, .NumberNode v4, .ArrayNode [1, 2, 4]] ∧
      JSON.keys [Node.ObjectNode [("foo".toList, 5)], .NumberNode v1, .NumberNode v2,
          .NumberNode v3, .NumberNode v4, .ArrayNode [1, 2, 4]] 0 = .ok ["foo".toList] ∧
      Heap.structEq [Node.ObjectNode [("foo".toList, 5)], .NumberNode v1, .NumberNode v2,
          .NumberNode v3, .NumberNode v4, .ArrayNode [1, 2, 4]] 0
        (.object [("foo".toList, .array [.number v1, .number v2, .number v4])]) = true) := by
  refine ⟨?_, ?_, rfl, rfl, rfl, rfl, rfl, ?_⟩
  · simp [Node.removeAt, Array.remove_of_lt data idx h, List.eraseIdx_eq_take_drop_succ]
  · rw [← List.eraseIdx_eq_take_drop_succ, List.length_eraseIdx_of_lt h]
  · simp [Heap.structEq, Heap.structEqMembers, Heap.structEqItems]

/-- Witness of C9: the array `[4, 5, 6, 7]` with the element at index `2` removed, and the
example of the claim with the numbers `1, 2, 3, 4`. -/
theorem removeAt_erases_element_witness :
    Node.removeAt (Node.ArrayNode [4, 5, 6, 7] : Node Nat) 2 = .ok () (.ArrayNode [4, 5, 7]) ∧
    JSON.removeAt [Node.ObjectNode [("foo".toList, 5)], .NumberNode 1, .NumberNode 2,
        .NumberNode 3, .NumberNode 4, .ArrayNode [1, 2, 3, 4]] 5 2 =
      .ok () [.ObjectNode [("foo".toList, 5)], .NumberNode 1, .NumberNode 2,
        .NumberNode 3, .NumberNode 4, .ArrayNode [1, 2, 4]] :=
  ⟨(removeAt_erases_element [4, 5, 6, 7] 2 (by decide) (1 : Nat) 2 3 4).1,
    (removeAt_erases_element [4, 5, 6, 7] 2 (by decide) (1 : Nat) 2 3 4).2.2.2.2.2.1⟩

/-- C10: a string value is serialized as its bare bytes, without quotes (the keys of an object
are written between quotes).  The document of the text `"true"`, a string, and the document
of the text `true`, a bool, are both serialized as `true`, so parsing the output cannot give
back a tree equal to both; the document of the text `["hello"]` is serialized as
`[    hello` and, on the next line, `]`, which is not a JSON text. -/
theorem serialize_string_without_quotes (fmt : D → List Byte) :
    JSON.parse [.string "true".toList] ([] : Heap D) = .ok 0 [.StringNode "true".toList] ∧
    JSON.serialize fmt [Node.StringNode "true".toList] 0 = some "true".toList ∧
    JSON.parse [.bool true] ([] : Heap D) = .ok 0 [.BoolNode true] ∧
    JSON.serialize fmt [Node.BoolNode true] 0 = some "true".toList ∧
    JSON.parse [.beginArray, .string "hello".toList, .endArray 1] ([] : Heap D) =
      .ok 1 [.StringNode "hello".toList, .ArrayNode [0]] ∧
    JSON.serialize fmt [Node.StringNode "hello".toList, .ArrayNode [0]] 1 =
      some "[    hello\n]".toList ∧
    JSON.serialize fmt [Node.StringNode "k".toList, .StringNode "v".toList,
        .ObjectNode [("k".toList, 1)]] 2 =
      some "\x7b\n    \"k\" : v\n\x7d".toList := by
  refine ⟨rfl, rfl, rfl, rfl, rfl, rfl, rfl⟩

end Claims

/-! ## Lemmas on runs of dictionary calls -/

section RunLemmas

variable {T : Type}

theorem Dictionary.eraseKey_absent (data : Dictionary T) (key : String)
    (h : key ∉ data.map Prod.fst) : Dictionary.eraseKey key data = data := by
  induction data with
  | nil => rfl
  | cons d rest ih =>
    rw [List.map_cons, List.mem_cons, not_or] at h
    have hd : ¬ d.1 = key := fun hc => h.1 hc.symm
    simp [Dictionary.eraseKey, hd, ih h.2]

theorem Dictionary.keys_eraseKey_sublist (data : Dictionary T) (key : String) :
    ((Dictionary.eraseKey key data).map Prod.fst).Sublist (data.map Prod.fst) := by
  induction data with
  | nil => simp [Dictionary.eraseKey]
  | cons d rest ih =>
    by_cases hd : d.1 = key
    · simp [Dictionary.eraseKey, hd]
    · simp only [Dictionary.eraseKey, hd, if_false, List.map_cons]
      exact ih.cons₂ _

theorem Dictionary.firstValue_isSome_iff (data : Dictionary T) (key : String) :
    (Dictionary.firstValue key data).isSome = true ↔ key ∈ data.map Prod.fst := by
  induction data with
  | nil => simp [Dictionary.firstValue]
  | cons d rest ih =>
    by_cases hd : d.1 = key
    · simp only [Dictionary.firstValue, hd, if_true, Option.isSome_some, List.map_cons,
        List.mem_cons, true_or]
    · have hne : ¬ key = d.1 := fun hc => hd hc.symm
      simp only [Dictionary.firstValue, hd, if_false, ih, List.map_cons, List.mem_cons, hne,
        false_or]

end RunLemmas



section Claims2

variable {D : Type}

end Claims2


section Claims4

variable {D : Type}

end Claims4

/-! ## Lemmas on the serialization -/

section SerializeLemmas

variable {D : Type}

theorem printIndent_eq (indentLevel : Nat) :
    printIndent indentLevel = List.replicate (4 * indentLevel) ' ' := by
  induction indentLevel with
  | zero => rfl
  | succ n ih =>
    rw [printIndent, ih, show 4 * (n + 1) = 4 + 4 * n by ring, List.replicate_add]
    rfl

/-- The two loops of a composite, over all children but the last and over the last, write the
lines of the children with a comma after every line except the last. -/
theorem emitAll_commaLines {α : Type} (g : α → Option (List Byte)) (xs : List α)
    (lines : List (List Byte)) (h : List.Forall₂ (fun x line => g x = some line) xs lines)
    (hne : xs ≠ []) :
    ∃ front last,
      emitAll (fun x => (g x).map (fun text => text ++ ",\n".toList)) xs.dropLast = some front ∧
      emitAll g xs.getLast?.toList = some last ∧
      front ++ last = commaLines lines := by
  induction h with
  | nil => exact absurd rfl hne
  | @cons x line xs lines hx hrest ih =>
    cases hrest with
    | nil =>
      refine ⟨[], line, rfl, ?_, rfl⟩
      simp [emitAll, hx]
    | @cons y line1 ys lines1 hy hrest1 =>
      obtain ⟨front, last, hf, hl, hjoin⟩ := ih (List.cons_ne_nil _ _)
      refine ⟨line ++ ",\n".toList ++ front, last, ?_, ?_, ?_⟩
      · rw [List.dropLast_cons₂]
        simp only [emitAll, hx, Option.map_some', hf]
      · rw [List.getLast?_cons_cons]
        exact hl
      · rw [List.append_assoc, hjoin]
        rfl

/-- An array node with at least one child at an indent level above `0`: the layout of the
specification. -/
theorem Node.serialize_array_nested (fmt : D → List Byte) (allocator : Heap D) (fuel : Nat)
    (node : NodeRef) (indentLevel : Nat) (data : Array NodeRef) (texts : List (List Byte))
    (hnode : allocator.get? node = some (.ArrayNode data)) (hne : data ≠ [])
    (hlevel : 0 < indentLevel)
    (hchildren : List.Forall₂
      (fun child text => Node.serialize fmt allocator fuel child (indentLevel + 1) = some text)
      data texts) :
    Node.serialize fmt allocator (fuel + 1) node indentLevel =
      some (prettyComposite "[".toList "]".toList indentLevel texts) := by
  have hlines : List.Forall₂
      (fun child line =>
        (Node.serialize fmt allocator fuel child (indentLevel + 1)).map
          (fun text => printIndent (indentLevel + 1) ++ text) = some line)
      data (texts.map (fun text => List.replicate (4 * (indentLevel + 1)) ' ' ++ text)) := by
    rw [List.forall₂_map_right_iff]
    refine hchildren.imp ?_
    intro child text hc
    rw [hc, printIndent_eq]
    rfl
  obtain ⟨front, last, hf, hl, hjoin⟩ := emitAll_commaLines _ data _ hlines hne
  simp only [Node.serialize, hnode, hf, hl]
  simp only [hlevel, if_true, prettyComposite, ← hjoin, printIndent_eq, List.append_assoc]

/-- An array node with at least one child at indent level `0`: no newline follows the opening
bracket. -/
theorem Node.serialize_array_root (fmt : D → List Byte) (allocator : Heap D) (fuel : Nat)
    (node : NodeRef) (data : Array NodeRef) (texts : List (List Byte))
    (hnode : allocator.get? node = some (.ArrayNode data)) (hne : data ≠ [])
    (hchildren : List.Forall₂
      (fun child text => Node.serialize fmt allocator fuel child 1 = some text) data texts) :
    Node.serialize fmt allocator (fuel + 1) node 0 =
      some ("[".toList ++
        commaLines (texts.map (fun text => List.replicate 4 ' ' ++ text)) ++ "\n]".toList) := by
  have hlines : List.Forall₂
      (fun child line =>
        (Node.serialize fmt allocator fuel child (0 + 1)).map
          (fun text => printIndent (0 + 1) ++ text) = some line)
      data (texts.map (fun text => List.replicate 4 ' ' ++ text)) := by
    rw [List.forall₂_map_right_iff]
    refine hchildren.imp ?_
    intro child text hc
    rw [Nat.zero_add, hc, printIndent_eq]
    rfl
  obtain ⟨front, last, hf, hl, hjoin⟩ := emitAll_commaLines _ data _ hlines hne
  simp only [Node.serialize, hnode, hf, hl]
  simp only [lt_irrefl, if_false, ← hjoin, printIndent, List.append_assoc, List.nil_append]
  rfl

/-- An object node with at least one member at any indent level: the layout of the
specification. -/
theorem Node.serialize_object (fmt : D → List Byte) (allocator : Heap D) (fuel : Nat)
    (node : NodeRef) (indentLevel : Nat) (data : Dictionary NodeRef) (texts : List (List Byte))
    (hnode : allocator.get? node = some (.ObjectNode data)) (hne : data ≠ [])
    (hchildren : List.Forall₂
      (fun (entry : String × NodeRef) text =>
        Node.serialize fmt allocator fuel entry.2 (indentLevel + 1) = some text) data texts) :
    Node.serialize fmt allocator (fuel + 1) node indentLevel =
      some (prettyComposite "\x7b".toList "\x7d".toList indentLevel
        (List.zipWith memberText (data.map Prod.fst) texts)) := by
  have hlines : List.Forall₂
      (fun (entry : String × NodeRef) line =>
        (Node.serialize fmt allocator fuel entry.2 (indentLevel + 1)).map
          (fun text => printIndent (indentLevel + 1) ++ "\"".toList ++
            String.toSTLString entry.1 ++ "\" : ".toList ++ text) = some line)
      data ((List.zipWith memberText (data.map Prod.fst) texts).map
        (fun text => List.replicate (4 * (indentLevel + 1)) ' ' ++ text)) := by
    clear hnode hne
    induction hchildren with
    | nil => exact .nil
    | @cons entry text entries texts1 hc _ ih =>
      simp only [List.map_cons, List.zipWith_cons_cons]
      refine .cons ?_ ih
      rw [hc, printIndent_eq, String.toSTLString_eq]
      simp [memberText, List.append_assoc]
  obtain ⟨front, last, hf, hl, hjoin⟩ := emitAll_commaLines _ data _ hlines hne
  by_cases hlevel : 0 < indentLevel
  · simp only [Node.serialize, hnode, hf, hl]
    simp only [hlevel, if_true, prettyComposite, ← hjoin, printIndent_eq, List.append_assoc]
  · have h0 : indentLevel = 0 := by omega
    subst h0
    simp only [Node.serialize, hnode, hf, hl]
    simp only [lt_irrefl, if_false, prettyComposite, ← hjoin, printIndent_eq,
      List.append_assoc, Nat.mul_zero, List.replicate_zero, List.nil_append]

end SerializeLemmas

section Claims5

variable {D : Type}

/-- C11: the array node at the root (indent level `0`) of the document parsed from an array
text of two numbers is serialized with no newline after the opening bracket: the first child
follows the bracket on the same line, which is not the layout of the specification.  An
object at the root, and an array one level down, are laid out as specified. -/
theorem root_array_opens_without_newline (fmt : D → List Byte) (v1 v2 : D) :
    JSON.parse [.beginArray, .number v1, .number v2, .endArray 2] ([] : Heap D) =
      .ok 2 [.NumberNode v1, .NumberNode v2, .ArrayNode [0, 1]] ∧
    JSON.serialize fmt [Node.NumberNode v1, .NumberNode v2, .ArrayNode [0, 1]] 2 =
      some ("[".toList ++ "    ".toList ++ fmt v1 ++ ",\n".toList ++ "    ".toList ++ fmt v2 ++
        "\n]".toList) ∧
    JSON.serialize fmt [Node.NumberNode v1, .NumberNode v2, .ArrayNode [0, 1]] 2 ≠
      some (prettyComposite "[".toList "]".toList 0 [fmt v1, fmt v2]) ∧
    JSON.serialize fmt [Node.StringNode "k".toList, .NumberNode v1,
        .ObjectNode [("k".toList, 1)]] 2 =
      some (prettyComposite "\x7b".toList "\x7d".toList 0 [memberText "k".toList (fmt v1)]) ∧
    JSON.serialize fmt [Node.NumberNode v1, .ArrayNode [0], .StringNode "k".toList,
        .ObjectNode [("k".toList, 1)]] 3 =
      some (prettyComposite "\x7b".toList "\x7d".toList 0
        [memberText "k".toList (prettyComposite "[".toList "]".toList 1 [fmt v1])]) := by
  refine ⟨rfl, ?_, ?_, ?_, ?_⟩
  · simp [JSON.serialize, Node.serialize, emitAll, printIndent]
  · intro h
    simp [JSON.serialize, Node.serialize, emitAll, printIndent, prettyComposite,
      commaLines] at h
  · simp [JSON.serialize, Node.serialize, emitAll, printIndent, prettyComposite,
      commaLines, memberText, String.toSTLString_eq]
  · simp [JSON.serialize, Node.serialize, emitAll, printIndent, prettyComposite,
      commaLines, memberText, String.toSTLString_eq]

end Claims5

/-! ## Lemmas on the allocator -/

section AllocatorLemmas

theorem List.get?_append_last {α : Type} (init : List α) (c : α) :
    (init ++ [c]).get? init.length = some c := by
  simp

theorem List.set_append_last {α : Type} (init : List α) (c c1 : α) :
    (init ++ [c]).set init.length c1 = init ++ [c1] := by
  induction init with
  | nil => rfl
  | cons x xs ih => simp [ih]

/-- A well-formed allocator has its pages as the earlier pages and the current page. -/
theorem FastAllocator.wf_split (self : FastAllocator) (h : self.wf) :
    ∃ init cur, self = ⟨init ++ [cur], init.length⟩ := by
  obtain ⟨pages, current⟩ := self
  obtain ⟨hc, _⟩ := h
  simp only at hc
  have hne : pages ≠ [] := by
    intro hn
    rw [hn] at hc
    simp at hc
  refine ⟨pages.dropLast, pages.getLast hne, ?_⟩
  rw [List.dropLast_append_getLast hne, List.length_dropLast]
  congr 1
  omega

/-- The call `alloc` on an allocator whose current page is the last. -/
theorem FastAllocator.alloc_eq (granted : Bool) (init : List PageInfo) (cur : PageInfo)
    (sz : Nat) :
    FastAllocator.alloc granted ⟨init ++ [cur], init.length⟩ sz =
      if sz > subSize cur.capacity cur.used then
        if granted then
          .ok ⟨init.length + 1, sizeofPageInfo⟩
            ⟨init ++ [cur] ++
              [⟨if addSize sz sizeofPageInfo < PAGE_SIZE then PAGE_SIZE
                else addSize sz sizeofPageInfo, addSize sizeofPageInfo sz⟩],
              init.length + 1⟩
        else .throws .OutOfMemoryError ⟨init ++ [cur], init.length⟩
      else
        .ok ⟨init.length, cur.used⟩
          ⟨init ++ [⟨cur.capacity, addSize cur.used sz⟩], init.length⟩ := by
  simp only [FastAllocator.alloc, List.get?_append_last]
  by_cases hroom : sz > subSize cur.capacity cur.used
  · cases granted with
    | true =>
      have htake : List.take (init.length + 1) (init ++ [cur]) = init ++ [cur] := by
        rw [List.take_of_length_le]
        simp
      have hlen : (init ++ [cur] ++
          [(⟨if addSize sz sizeofPageInfo < PAGE_SIZE then PAGE_SIZE
            else addSize sz sizeofPageInfo, sizeofPageInfo⟩ : PageInfo)]).length - 1 =
          (init ++ [cur]).length := by
        simp
      simp only [hroom, if_true, FastAllocator.newPage, htake, hlen,
        List.get?_append_last, List.set_append_last]
      simp
    | false =>
      simp only [hroom, if_true, FastAllocator.newPage, Bool.false_eq_true, if_false]
  · simp only [hroom, if_false, List.get?_append_last, List.set_append_last]

theorem addSize_eq (a b : Nat) (h : a + b < SIZE_RANGE) : addSize a b = a + b :=
  Nat.mod_eq_of_lt h

theorem subSize_eq (a b : Nat) (hba : b ≤ a) (ha : a < SIZE_RANGE) : subSize a b = a - b := by
  unfold subSize
  have h1 : a + SIZE_RANGE - b = (a - b) + SIZE_RANGE := by omega
  rw [h1, Nat.add_mod_right]
  exact Nat.mod_eq_of_lt (by omega)

theorem PAGE_SIZE_lt : PAGE_SIZE < SIZE_RANGE := by decide

theorem List.get?_append_of_get? {α : Type} (xs ys : List α) (i : Nat) (x : α)
    (h : xs.get? i = some x) : (xs ++ ys).get? i = some x := by
  have hlt : i < xs.length := by
    by_contra hc
    have hn : xs.get? i = none := List.get?_eq_none.2 (Nat.le_of_not_lt hc)
    rw [hn] at h
    cases h
  rw [List.get?_eq_getElem?] at h ⊢
  rw [List.getElem?_append_left hlt]
  exact h

theorem List.lt_length_of_get? {α : Type} (xs : List α) (i : Nat) (x : α)
    (h : xs.get? i = some x) : i < xs.length := by
  by_contra hc
  have hn : xs.get? i = none := List.get?_eq_none.2 (Nat.le_of_not_lt hc)
  rw [hn] at h
  cases h

/-- One call of `alloc` on a well-formed allocator, for a size that fits with the header in a
`size_t`: either `malloc` was needed and refused, and the allocator is as before; or a block
is returned, the allocator is well-formed, the block lies in the used payload of its page
and shares no byte with the blocks held before, which are held still, and either no page was
added and the block is in the page that was current, or a page of capacity
`max(PAGE_SIZE, sz + sizeof(PageInfo))` was added at the end and is the current one, with the
block at its first payload byte. -/
theorem FastAllocator.alloc_step (granted : Bool) (self : FastAllocator) (sz : Nat)
    (prev : List (Ptr × Nat)) (hwf : self.wf) (hfit : sz + sizeofPageInfo < SIZE_RANGE)
    (hprev : ∀ b ∈ prev, self.holds b) :
    (granted = false ∧ self.alloc granted sz = .throws .OutOfMemoryError self) ∨
    ∃ ptr a1, self.alloc granted sz = .ok ptr a1 ∧ a1.wf ∧ a1.holds (ptr, sz) ∧
      (∀ b ∈ prev, a1.holds b) ∧ (∀ b ∈ prev, Ptr.disjoint b (ptr, sz)) ∧
      ((a1.pages.length = self.pages.length ∧ a1.current = self.current ∧
          ptr.page = self.current) ∨
        (a1.pages = self.pages ++
            [⟨max PAGE_SIZE (sz + sizeofPageInfo), sizeofPageInfo + sz⟩] ∧
          a1.current = self.pages.length ∧ ptr = ⟨self.pages.length, sizeofPageInfo⟩)) := by
  obtain ⟨init, cur, rfl⟩ := FastAllocator.wf_split self hwf
  obtain ⟨_, hpages⟩ := hwf
  simp only at hpages
  have hcur := hpages cur (by simp)
  have hsub : subSize cur.capacity cur.used = cur.capacity - cur.used :=
    subSize_eq _ _ hcur.2.1 hcur.2.2
  rw [FastAllocator.alloc_eq, hsub]
  by_cases hroom : sz > cur.capacity - cur.used
  · cases granted with
    | false =>
      left
      simp only [hroom, if_true, Bool.false_eq_true, if_false, and_self]
    | true =>
      right
      have h1 : addSize sz sizeofPageInfo = sz + sizeofPageInfo := addSize_eq _ _ hfit
      have h2 : addSize sizeofPageInfo sz = sizeofPageInfo + sz :=
        addSize_eq _ _ (by omega)
      have h3 : (if sz + sizeofPageInfo < PAGE_SIZE then PAGE_SIZE else sz + sizeofPageInfo) =
          max PAGE_SIZE (sz + sizeofPageInfo) := by
        split
        · rw [max_eq_left]; omega
        · rw [max_eq_right]; omega
      have hP := PAGE_SIZE_lt
      simp only [hroom, if_true, h1, h2, h3]
      refine ⟨_, _, rfl, ⟨by simp, ?_⟩, ?_, ?_, ?_, Or.inr ⟨rfl, by simp, by simp⟩⟩
      · intro page hp
        simp only [List.mem_append, List.mem_singleton] at hp
        rcases hp with (hp | hp) | hp
        · exact hpages page (by simp [hp])
        · exact hpages page (by simp [hp])
        · subst hp
          refine ⟨by simp, ?_, ?_⟩
          · simp only
            have := le_max_right PAGE_SIZE (sz + sizeofPageInfo)
            omega
          · simp only
            exact max_lt hP hfit
      · refine ⟨⟨max PAGE_SIZE (sz + sizeofPageInfo), sizeofPageInfo + sz⟩, ?_, le_refl _,
          le_refl _⟩
        have := List.get?_append_last (init ++ [cur])
          (⟨max PAGE_SIZE (sz + sizeofPageInfo), sizeofPageInfo + sz⟩ : PageInfo)
        simpa using this
      · intro b hb
        obtain ⟨page, hg, h24, hend⟩ := hprev b hb
        exact ⟨page, List.get?_append_of_get? _ _ _ _ hg, h24, hend⟩
      · intro b hb
        obtain ⟨page, hg, _, _⟩ := hprev b hb
        have hlt := List.lt_length_of_get? _ _ _ hg
        left
        simp only [List.length_append, List.length_singleton] at hlt
        simp only
        omega
  · right
    have h1 : addSize cur.used sz = cur.used + sz := addSize_eq _ _ (by omega)
    simp only [hroom, if_false, h1]
    refine ⟨_, _, rfl, ⟨by simp, ?_⟩, ?_, ?_, ?_, Or.inl ⟨by simp, rfl, rfl⟩⟩
    · intro page hp
      simp only [List.mem_append, List.mem_singleton] at hp
      rcases hp with hp | hp
      · exact hpages page (by simp [hp])
      · subst hp
        exact ⟨by simp only; omega, by simp only; omega, hcur.2.2⟩
    · exact ⟨⟨cur.capacity, cur.used + sz⟩, List.get?_append_last _ _, hcur.1, le_refl _⟩
    · intro b hb
      obtain ⟨page, hg, h24, hend⟩ := hprev b hb
      have hlt := List.lt_length_of_get? _ _ _ hg
      simp only [List.length_append, List.length_singleton] at hlt
      by_cases hpage : b.1.page = init.length
      · have hpc : page = cur := by
          rw [hpage, List.get?_append_last] at hg
          exact (Option.some.inj hg).symm
        subst hpc
        refine ⟨⟨page.capacity, page.used + sz⟩, ?_, h24, by simp only; omega⟩
        rw [hpage]
        exact List.get?_append_last _ _
      · have hlt1 : b.1.page < init.length := by omega
        refine ⟨page, ?_, h24, hend⟩
        rw [List.get?_eq_getElem?] at hg ⊢
        rw [List.getElem?_append_left hlt1] at hg ⊢
        exact hg
    · intro b hb
      obtain ⟨page, hg, _, hend⟩ := hprev b hb
      by_cases hpage : b.1.page = init.length
      · have hpc : page = cur := by
          rw [hpage, List.get?_append_last] at hg
          exact (Option.some.inj hg).symm
        subst hpc
        right; left
        exact hend
      · left
        exact hpage

theorem FastAllocator.fresh_wf : FastAllocator.fresh.wf := by
  refine ⟨rfl, ?_⟩
  intro page hp
  simp only [FastAllocator.fresh, List.mem_singleton] at hp
  subst hp
  decide

/-- A run of `alloc` calls from a well-formed allocator that holds the blocks `prev`, pairwise
disjoint: the run has no undefined behaviour, the allocator stays well-formed, and the old
and the new blocks are held and pairwise disjoint. -/
theorem FastAllocator.allocAll_inv (reqs : List (Bool × Nat)) :
    ∀ (self : FastAllocator) (prev : List (Ptr × Nat)), self.wf →
      (∀ r ∈ reqs, r.2 + sizeofPageInfo < SIZE_RANGE) →
      (∀ b ∈ prev, self.holds b) → prev.Pairwise Ptr.disjoint →
      ∃ a blocks, self.allocAll reqs = some (a, blocks) ∧ a.wf ∧
        (∀ b ∈ prev ++ blocks, a.holds b) ∧ (prev ++ blocks).Pairwise Ptr.disjoint ∧
        ((∀ r ∈ reqs, r.1 = true) → blocks.map Prod.snd = reqs.map Prod.snd) := by
  induction reqs with
  | nil =>
    intro self prev hwf _ hprev hdis
    exact ⟨self, [], rfl, hwf, by simpa using hprev, by simpa using hdis, fun _ => rfl⟩
  | cons r rest ih =>
    intro self prev hwf hfit hprev hdis
    obtain ⟨granted, sz⟩ := r
    have hfit1 : sz + sizeofPageInfo < SIZE_RANGE := hfit (granted, sz) (List.mem_cons_self _ _)
    have hfit2 : ∀ r ∈ rest, r.2 + sizeofPageInfo < SIZE_RANGE :=
      fun r hr => hfit r (List.mem_cons_of_mem _ hr)
    rcases FastAllocator.alloc_step granted self sz prev hwf hfit1 hprev with
      ⟨hg, hthrow⟩ | ⟨ptr, a1, hok, hwf1, hnew, hold, hapart, _⟩
    · obtain ⟨a, blocks, hrun, hwfa, hheld, hpair, _⟩ := ih self prev hwf hfit2 hprev hdis
      refine ⟨a, blocks, ?_, hwfa, hheld, hpair, ?_⟩
      · simp only [FastAllocator.allocAll, hthrow, hrun]
      · intro hall
        have := hall (granted, sz) (List.mem_cons_self _ _)
        simp only at this
        rw [this] at hg
        cases hg
    · have hprev1 : ∀ b ∈ prev ++ [(ptr, sz)], a1.holds b := by
        intro b hb
        rcases List.mem_append.1 hb with hb | hb
        · exact hold b hb
        · rw [List.mem_singleton] at hb
          exact hb ▸ hnew
      have hdis1 : (prev ++ [(ptr, sz)]).Pairwise Ptr.disjoint := by
        rw [List.pairwise_append]
        refine ⟨hdis, List.pairwise_singleton _ _, ?_⟩
        intro a ha b hb
        rw [List.mem_singleton] at hb
        exact hb ▸ hapart a ha
      obtain ⟨a, blocks, hrun, hwfa, hheld, hpair, hsizes⟩ :=
        ih a1 (prev ++ [(ptr, sz)]) hwf1 hfit2 hprev1 hdis1
      refine ⟨a, (ptr, sz) :: blocks, ?_, hwfa, ?_, ?_, ?_⟩
      · simp only [FastAllocator.allocAll, hok, hrun, Option.map_some']
      · simpa only [List.append_assoc, List.singleton_append] using hheld
      · simpa only [List.append_assoc, List.singleton_append] using hpair
      · intro hall
        simp only [List.map_cons]
        rw [hsizes (fun r hr => hall r (List.mem_cons_of_mem _ hr))]

end AllocatorLemmas

section Claims6

/-- C16: every sequence of `alloc` calls on a fresh arena, each size fitting with the page
header in a `size_t`, and whatever `malloc` answers, runs without undefined behaviour.  After
it every page has `sizeof(PageInfo) <= used <= capacity` and the current page is the last of
the list; every block returned lies in the payload of one page, behind the header and within
the capacity, and no two blocks returned share a byte; when `malloc` never refuses there is
one block per call, of the size asked.  A further call `alloc(n)` either throws
`OutOfMemoryError`, when `malloc` refuses, and leaves the arena as it was, or returns a block:
in the page that was current, or at the first payload byte of a new page of capacity
`max(PAGE_SIZE, n + sizeof(PageInfo))`, linked last and made the current page. -/
theorem alloc_keeps_arena_invariant (reqs : List (Bool × Nat)) (granted : Bool) (n : Nat)
    (hfit : ∀ r ∈ reqs, r.2 + sizeofPageInfo < SIZE_RANGE)
    (hn : n + sizeofPageInfo < SIZE_RANGE) :
    ∃ a blocks, FastAllocator.fresh.allocAll reqs = some (a, blocks) ∧
      (∀ page ∈ a.pages, sizeofPageInfo ≤ page.used ∧ page.used ≤ page.capacity) ∧
      a.current + 1 = a.pages.length ∧
      (∀ b ∈ blocks, ∃ page, a.pages.get? b.1.page = some page ∧
        sizeofPageInfo ≤ b.1.off ∧ b.1.off + b.2 ≤ page.capacity) ∧
      blocks.Pairwise Ptr.disjoint ∧
      ((∀ r ∈ reqs, r.1 = true) → blocks.map Prod.snd = reqs.map Prod.snd) ∧
      ((granted = false ∧ a.alloc granted n = .throws .OutOfMemoryError a) ∨
        ∃ ptr a1, a.alloc granted n = .ok ptr a1 ∧
          ((a1.pages.length = a.pages.length ∧ a1.current = a.current ∧
              ptr.page = a.current) ∨
            (a1.pages = a.pages ++
                [⟨max PAGE_SIZE (n + sizeofPageInfo), sizeofPageInfo + n⟩] ∧
              a1.current = a.pages.length ∧ ptr = ⟨a.pages.length, sizeofPageInfo⟩))) := by
  obtain ⟨a, blocks, hrun, hwf, hheld, hpair, hsizes⟩ :=
    FastAllocator.allocAll_inv reqs FastAllocator.fresh [] FastAllocator.fresh_wf hfit
      (by simp) List.Pairwise.nil
  refine ⟨a, blocks, hrun, fun page hp => ⟨(hwf.2 page hp).1, (hwf.2 page hp).2.1⟩, hwf.1,
    ?_, by simpa using hpair, hsizes, ?_⟩
  · intro b hb
    obtain ⟨page, hg, h24, hend⟩ := hheld b (by simpa using hb)
    have hmem : page ∈ a.pages := List.get?_mem hg
    exact ⟨page, hg, h24, le_trans hend (hwf.2 page hmem).2.1⟩
  · rcases FastAllocator.alloc_step granted a n [] hwf hn (by simp) with
      h | ⟨ptr, a1, hok, _, _, _, _, hcase⟩
    · exact Or.inl h
    · exact Or.inr ⟨ptr, a1, hok, hcase⟩

/-- Witness of C16: the sizes `100`, `20000` (more than a page), `0`, `16000` with a refusing
`malloc`, and `8`, then one more call of size `30000`. -/
theorem alloc_keeps_arena_invariant_witness :
    (∃ a blocks, FastAllocator.fresh.allocAll
        [(true, 100), (true, 20000), (true, 0), (false, 16000), (true, 8)] =
          some (a, blocks) ∧
      (∀ page ∈ a.pages, sizeofPageInfo ≤ page.used ∧ page.used ≤ page.capacity) ∧
      a.current + 1 = a.pages.length ∧
      blocks.Pairwise Ptr.disjoint) ∧
    FastAllocator.fresh.allocAll
        [(true, 100), (true, 20000), (true, 0), (false, 16000), (true, 8)] =
      some (⟨[⟨16384, 124⟩, ⟨20024, 20024⟩, ⟨16384, 32⟩], 2⟩,
        [(⟨0, 24⟩, 100), (⟨1, 24⟩, 20000), (⟨1, 20024⟩, 0), (⟨2, 24⟩, 8)]) :=
  ⟨match alloc_keeps_arena_invariant
        [(true, 100), (true, 20000), (true, 0), (false, 16000), (true, 8)] true 30000
        (by decide) (by decide) with
    | ⟨a, blocks, hrun, hpages, hcur, _, hpair, _⟩ => ⟨a, blocks, hrun, hpages, hcur, hpair⟩,
    by decide⟩

end Claims6

section Claims7

/-- C15: three calls `reAlloc(ptr, 80, 160)`.  (1) On a fresh arena the block `alloc(80)` ends
where the used region ends and the page has room, yet the call returns another block, at
offset `104`, and `used` grows by `160`, not by `80`.  (2) After `alloc(56)`, `alloc(80)`,
`alloc(16)` the block of 80 bytes is not at the tail, yet the call returns `ptr` itself and
raises `used` by `80`: the block returned runs over the block of 16 bytes.  (3) After
`alloc(56)`, `alloc(80)`, `alloc(16200)` the call returns nothing.  The test of the code
compares with `current + new_sz`, not with the end of the used region. -/
theorem reAlloc_tests_the_wrong_end :
    FastAllocator.fresh.alloc true 80 = .ok ⟨0, 24⟩ ⟨[⟨PAGE_SIZE, 104⟩], 0⟩ ∧
    reAllocResult (FastAllocator.reAlloc true ⟨[⟨PAGE_SIZE, 104⟩], 0⟩ (fun _ => 0) ⟨0, 24⟩
        80 160) =
      some (⟨0, 104⟩, ⟨[⟨PAGE_SIZE, 264⟩], 0⟩) ∧
    FastAllocator.fresh.allocAll [(true, 56), (true, 80), (true, 16)] =
      some (arenaWithInnerBlock, [(⟨0, 24⟩, 56), (⟨0, 80⟩, 80), (⟨0, 160⟩, 16)]) ∧
    reAllocResult (FastAllocator.reAlloc true arenaWithInnerBlock (fun _ => 0) ⟨0, 80⟩
        80 160) =
      some (⟨0, 80⟩, ⟨[⟨PAGE_SIZE, 256⟩], 0⟩) ∧
    ¬ Ptr.disjoint ((⟨0, 80⟩ : Ptr), 160) ((⟨0, 160⟩ : Ptr), 16) ∧
    FastAllocator.fresh.allocAll [(true, 56), (true, 80), (true, 16200)] =
      some (arenaNearlyFull, [(⟨0, 24⟩, 56), (⟨0, 80⟩, 80), (⟨0, 160⟩, 16200)]) ∧
    FastAllocator.reAlloc true arenaNearlyFull (fun _ => (0 : Nat)) ⟨0, 80⟩ 80 160 = .ub ∧
    FastAllocator.reAlloc false arenaNearlyFull (fun _ => (0 : Nat)) ⟨0, 80⟩ 80 160 = .ub := by
  refine ⟨by decide, by decide, by decide, by decide, ?_, by decide, rfl, rfl⟩
  simp [Ptr.disjoint]

/-- C14: two arrays of eight-byte elements in one arena, `A` constructed after `alloc(56)` and
`B` after `A`; `7` is pushed on `B`, then `100, ..., 110` on `A`.  With ten values pushed on
`A` the array `B` holds `7`.  The eleventh `pushBack` grows `A`: `reAlloc` takes the block of
`A`, which is followed by the block of `B`, for the last block of the page and extends it in
place; `A` keeps its pointer with the capacity `20`, and its eleventh element is written on
the first element of `B`, which now holds `110` and not the `7` pushed. -/
theorem growth_overwrites_next_block :
    twoArraysBeforeGrowth =
      some ([100, 101, 102, 103, 104, 105, 106, 107, 108, 109], [7],
        ⟨10, 10, ⟨0, 80⟩⟩, ⟨10, 1, ⟨0, 160⟩⟩, ⟨[⟨PAGE_SIZE, 240⟩], 0⟩) ∧
    twoArrays =
      some ([100, 101, 102, 103, 104, 105, 106, 107, 108, 109, 110], [110],
        ⟨20, 11, ⟨0, 80⟩⟩, ⟨10, 1, ⟨0, 160⟩⟩, ⟨[⟨PAGE_SIZE, 320⟩], 0⟩) ∧
    twoArrays.map (fun r => r.2.1) ≠ some [7] := by
  decide

end Claims7

section Claims8

theorem StringObj.index_at_size (mem : Nat → Byte) (self : StringObj)
    (hnull : self.beginPtr ≠ 0) :
    self.index mem self.size = .ok (mem (self.beginPtr + self.size)) := by
  simp [StringObj.index, hnull]

/-- C17: the slice of the literal `ab`, stored at the addresses `100` and `101` with its
terminator at `102`.  Indexing at `0` and `1` returns the two bytes and indexing at `3`
throws `IndexOutOfRangeError`, but indexing at `2`, the size, throws nothing and returns the
byte at address `102`, which lies outside the slice: the test of the code is `idx > sz`. -/
theorem string_index_at_size_reads_past_end :
    StringObj.size ⟨100, 102⟩ = 2 ∧
    StringObj.bytes literalAb ⟨100, 102⟩ = "ab".toList ∧
    StringObj.index literalAb ⟨100, 102⟩ 0 = .ok 'a' ∧
    StringObj.index literalAb ⟨100, 102⟩ 1 = .ok 'b' ∧
    StringObj.index literalAb ⟨100, 102⟩ 2 = .ok (literalAb 102) ∧
    StringObj.index literalAb ⟨100, 102⟩ 2 ≠ .throws .IndexOutOfRangeError ∧
    StringObj.index literalAb ⟨100, 102⟩ 3 = .throws .IndexOutOfRangeError := by
  decide

/-- The constructor on bounds with `e` before `b`: the test `sz < 0` on a `size_t` never holds,
`alloc` is called with `e - b` wrapped to a `size_t`, and the call ends as `alloc` ends, or
with the `memcpy` of that many bytes. -/
theorem StringObj.copy_reversed {σ : Type} (alloc : σ → Nat → Outcome σ Ptr) (allocator : σ)
    (b e : Nat) (heb : e < b) (hb : b < SIZE_RANGE) :
    StringObj.copy alloc allocator b e =
      match alloc allocator (SIZE_RANGE - (b - e)) with
      | .ok _ _ => .ub
      | .throws err a1 => .throws err a1
      | .ub => .ub
      | .undetermined => .undetermined := by
  have hsz : subSize e b = SIZE_RANGE - (b - e) := by
    unfold subSize
    have h1 : e + SIZE_RANGE - b = SIZE_RANGE - (b - e) := by omega
    rw [h1]
    exact Nat.mod_eq_of_lt (by omega)
  have hpos : SIZE_RANGE - (b - e) > 0 := by omega
  have hover : b + (SIZE_RANGE - (b - e)) ≥ SIZE_RANGE := by omega
  simp only [StringObj.copy, hsz, Nat.not_lt_zero, if_false, hpos, if_true, hover]

/-- C18: the copying constructor on bounds with `e` before `b`, on a fresh arena.  With
`b - e = 100` it asks the arena for `2^64 - 100` bytes and ends with the `OutOfMemoryError` of
a refused `malloc`; with `b - e = 10` the size of the new page wraps to a small one, the page
is added, and the `memcpy` of `2^64 - 10` bytes that follows is undefined.  In neither case is
`InvalidCStringError` thrown: the test `sz < 0` is on an unsigned `size_t`.  With `e = b` the
constructor returns the slice with null bounds and leaves the arena alone; with `e > b` it
returns a block of `e - b` bytes of the arena. -/
theorem string_copy_reversed_bounds :
    StringObj.copy (FastAllocator.alloc false) FastAllocator.fresh 1000 900 =
      .throws .OutOfMemoryError FastAllocator.fresh ∧
    StringObj.copy (FastAllocator.alloc false) FastAllocator.fresh 1000 900 ≠
      .throws .InvalidCStringError FastAllocator.fresh ∧
    FastAllocator.alloc true FastAllocator.fresh (SIZE_RANGE - 10) =
      .ok ⟨1, 24⟩ ⟨[⟨PAGE_SIZE, 24⟩, ⟨PAGE_SIZE, 14⟩], 1⟩ ∧
    StringObj.copy (FastAllocator.alloc true) FastAllocator.fresh 1000 990 = .ub ∧
    StringObj.copy (FastAllocator.alloc true) FastAllocator.fresh 1000 990 ≠
      .throws .InvalidCStringError FastAllocator.fresh ∧
    StringObj.copy (FastAllocator.alloc true) FastAllocator.fresh 1000 1000 =
      .ok none FastAllocator.fresh ∧
    StringObj.copy (FastAllocator.alloc true) FastAllocator.fresh 1000 1003 =
      .ok (some (⟨0, 24⟩, 3)) ⟨[⟨PAGE_SIZE, 27⟩], 0⟩ := by
  decide

end Claims8

section ReAllocLemmas

variable {V : Type}

theorem memcpy_read (mem : Memory V) (dst src : Ptr) (n j : Nat) (hj : j < n) :
    memcpy mem dst src n ⟨dst.page, dst.off + j⟩ = mem ⟨src.page, src.off + j⟩ := by
  have h : dst.page = dst.page ∧ dst.off ≤ dst.off + j ∧ dst.off + j < dst.off + n :=
    ⟨rfl, by omega, by omega⟩
  simp only [memcpy, h, and_self, if_true, Nat.add_sub_cancel_left]

/-- Where the pointer test of `reAlloc` fails on a growing call, the block returned is the one
`alloc` returns and its first `old_sz` places hold what the old block held. -/
theorem FastAllocator.reAlloc_copies (granted : Bool) (self : FastAllocator) (mem : Memory V)
    (old : Ptr) (old_sz new_sz : Nat) (cur : PageInfo)
    (hcur : self.pages.get? self.current = some cur) (hgrow : old_sz < new_sz)
    (htest : ¬ (old.page = self.current ∧ old.off + old_sz = new_sz))
    (ret : Ptr) (a1 : FastAllocator) (halloc : self.alloc granted new_sz = .ok ret a1) :
    ∃ mem1, self.reAlloc granted mem old old_sz new_sz = .ok ret (a1, mem1) ∧
      ∀ j, j < old_sz → mem1 ⟨ret.page, ret.off + j⟩ = mem ⟨old.page, old.off + j⟩ := by
  refine ⟨memcpy mem ret old old_sz, ?_, fun j hj => memcpy_read mem ret old old_sz j hj⟩
  have hle : ¬ (new_sz ≤ old_sz) := by omega
  simp only [FastAllocator.reAlloc, hcur, hle, if_false, htest, halloc]

end ReAllocLemmas


/-! ## Lemmas on the array in the arena -/

section ArrayInArenaLemmas

variable {V : Type}

theorem ArrayObj.slot_ne (self : ArrayObj) (sizeofT : Nat) (hT : 0 < sizeofT) (i j : Nat)
    (hij : i ≠ j) : self.slot sizeofT i ≠ self.slot sizeofT j := by
  intro h
  simp only [ArrayObj.slot, Ptr.mk.injEq, true_and, Nat.add_left_cancel_iff] at h
  exact hij (Nat.eq_of_mul_eq_mul_right hT h)

/-- With room in its block, `pushBack` calls no `reAlloc`: it stores the element behind the
last one and leaves the allocator and every other address as they were, so the elements are
those before and the new one.  This is `Array.pushBack` of the document level. -/
theorem ArrayObj.pushBack_of_room (granted : Bool) (sizeofT : Nat) (self : ArrayObj)
    (allocator : FastAllocator) (mem : Memory V) (e : V) (hroom : self.sz < self.capacity)
    (hT : 0 < sizeofT) :
    ∃ mem1, ArrayObj.pushBack granted sizeofT self allocator mem e =
        .ok () (⟨self.capacity, self.sz + 1, self.data⟩, allocator, mem1) ∧
      (∀ p, p ≠ self.slot sizeofT self.sz → mem1 p = mem p) ∧
      ArrayObj.elements ⟨self.capacity, self.sz + 1, self.data⟩ sizeofT mem1 =
        self.elements sizeofT mem ++ [e] := by
  have hne : ¬ (self.sz = self.capacity) := by omega
  refine ⟨fun p => if p = self.slot sizeofT self.sz then e else mem p, ?_, ?_, ?_⟩
  · simp only [ArrayObj.pushBack, hne, if_false]
  · intro p hp
    simp only [hp, if_false]
  · simp only [ArrayObj.elements, List.range_succ, List.map_append, List.map_cons, List.map_nil]
    congr 1
    · apply List.map_congr_left
      intro i hi
      have hlt : i < self.sz := List.mem_range.1 hi
      have hs : ArrayObj.slot ⟨self.capacity, self.sz + 1, self.data⟩ sizeofT i =
          self.slot sizeofT i := rfl
      rw [hs, if_neg (ArrayObj.slot_ne self sizeofT hT i self.sz (by omega))]
    · have hs : ArrayObj.slot ⟨self.capacity, self.sz + 1, self.data⟩ sizeofT self.sz =
          self.slot sizeofT self.sz := rfl
      rw [hs, if_pos rfl]

end ArrayInArenaLemmas

/-! ## The claims on the documents in the arena -/

section ClaimsOnTheArena

/-- C2: the builder on the events of the array `["a...a", null, null, null, 4, 5, ..., 20]`,
21 elements, the string of 16252 bytes.  The node `parse` returns is an array of 21 elements,
and its element 11 is not the number `11` of the document: the cell at its address is no
vtable pointer, and `asDouble` on it is undefined.  The parse stack, moved to offset 160 of
the second page when it grew to 20 elements, was grown a second time on the 21st push; the
test of `reAlloc` held, the block was extended in place over the number nodes allocated
behind it, and the pointer pushed was written on the node of `11`.  With 20 elements, one
number less, every element is the node of the document. -/
theorem parse_stack_growth_overwrites_node :
    longArrayView 16 = some ⟨.ok 20,
      some .StringNode :: (List.replicate 3 (some .NullNode) ++
        List.replicate 16 (some .NumberNode)),
      List.replicate 4 (.throws .NotConvertibleError) ++
        (List.range 16).map (fun i => Res.ok (4 + i))⟩ ∧
    longArrayElement 16 11 =
      some (⟨1, 464⟩, ⟨[⟨16384, 16380⟩, ⟨16384, 744⟩], 1⟩, .ok ⟨1, 320⟩, .vptr .NumberNode) ∧
    longArrayView 17 = some ⟨.ok 21,
      some .StringNode :: (List.replicate 3 (some .NullNode) ++
        List.replicate 7 (some .NumberNode) ++ [none] ++ List.replicate 9 (some .NumberNode)),
      List.replicate 4 (.throws .NotConvertibleError) ++
        (List.range 7).map (fun i => Res.ok (4 + i)) ++ [.ub] ++
        (List.range 9).map (fun i => Res.ok (12 + i))⟩ ∧
    longArrayElement 17 11 =
      some (⟨1, 640⟩, ⟨[⟨16384, 16380⟩, ⟨16384, 1240⟩], 1⟩, .ok ⟨1, 320⟩, .node ⟨1, 464⟩) ∧
    longArrayElement 17 20 =
      some (⟨1, 640⟩, ⟨[⟨16384, 16380⟩, ⟨16384, 1240⟩], 1⟩, .ok ⟨1, 464⟩,
        .vptr .NumberNode) := by
  refine ⟨?_, ?_, ?_, ?_, ?_⟩ <;> decide!

/-- C6: the document `[1, 2, 3, 4, 5, null, {}]` and `setKey` on its object, whose entries
lie at offset 240 of the page.  After ten new keys the object has its ten entries and the
array is as parsed.  The eleventh new key makes `Dictionary::set` grow the entries; the test
of `reAlloc` holds, the block is extended in place over the array node that follows it, and
the entry is written on that node: the object has its eleven keys, and `size` on the array is
undefined, the cell at its address being the new entry and no vtable pointer.  When the page
is nearly full (after `setAt(0, s)` with a string of 14504 bytes) the same call finds no room
in the page and `reAlloc` reaches no return statement: `setKey` on the absent key has
undefined behaviour, where the claim has it append the entry.  On the object parsed from an
empty object text, `setKey("a", 1)` then `setKey("a", 2)` give one key, `a`, with the
value `2`. -/
theorem setKey_growth_overwrites_or_never_returns :
    emptyObjectSetTwice = some (.ok 1, .ok ["a".toList], .ok 2) ∧
    objectWithTenKeys.map (fun doc => (doc.root, doc.obj)) = some (⟨0, 480⟩, ⟨0, 192⟩) ∧
    objectWithTenKeys.map DocumentView.of =
      some ⟨⟨[⟨16384, 1560⟩], 0⟩, .ok 7, .ok 10, .ok tenKeys, .vptr .ArrayNode⟩ ∧
    objectWithElevenKeys.map DocumentView.of =
      some ⟨⟨[⟨16384, 1896⟩], 0⟩, .ub, .ok 11, .ok (tenKeys ++ ["z".toList]),
        .pair (.outside "z".toList) ⟨0, 1640⟩⟩ ∧
    objectInFullPage.map DocumentView.of =
      some ⟨⟨[⟨16384, 16168⟩], 0⟩, .ok 7, .ok 10, .ok tenKeys, .vptr .ArrayNode⟩ ∧
    eleventhKeyInFullPageIsUb = some true := by
  refine ⟨?_, ?_, ?_, ?_, ?_, ?_⟩ <;> decide!

/-- C12: two dictionaries `A` and `B` whose entries follow each other in the page, `A` at
offset 240.  `B` is built from the empty map by `set` on `k` and on `x`, and `keys` on it
returns `k`, `x`.  The eleventh new key set on `A`, `x`, grows the entries of `A` in place
over those of `B`: after it `keys` on `B` returns `x`, `x`, the key `x` twice and the key
`k`, the first one set, not at all. -/
theorem keys_after_growth_of_neighbour :
    twoDictionaries.map TwoDictionaries.keys =
      some (.ok tenKeys, .ok ["k".toList, "x".toList]) ∧
    twoDictionariesThenSet.map TwoDictionaries.keys =
      some (.ok (tenKeys ++ ["x".toList]), .ok ["x".toList, "x".toList]) := by
  refine ⟨?_, ?_⟩ <;> decide!

/-- C13: the two dictionaries of C12, with their entries as the memory holds them.  Before
the eleventh key of `A` the entries of `B` are `(k, v)`, `(x, v)`, at offset 480 of the page,
behind the ten entries of `A` at offset 240.  `set("x", w)` on `A` doubles the capacity of
`A` with its block where it was, and writes the entry at offset 480: `B`, on which nothing
was called, has the two entries `(x, w)`, `(x, v)`, whose keys are equal byte for byte, and
`get` on it throws for `k` and returns for `x` the value set on `A`. -/
theorem growth_leaves_two_entries_with_one_key :
    twoDictionaries.map TwoDictionaries.layout =
      some (⟨10, 10, ⟨0, 240⟩⟩, ⟨10, 2, ⟨0, 480⟩⟩, ⟨[⟨16384, 720⟩], 0⟩,
        [.pair (.outside "k".toList) ⟨0, 24⟩, .pair (.outside "x".toList) ⟨0, 24⟩]) ∧
    twoDictionaries.map TwoDictionaries.getOnB = some (.ok ⟨0, 24⟩, .ok ⟨0, 24⟩) ∧
    twoDictionariesThenSet.map TwoDictionaries.layout =
      some (⟨20, 11, ⟨0, 240⟩⟩, ⟨10, 2, ⟨0, 480⟩⟩, ⟨[⟨16384, 960⟩], 0⟩,
        [.pair (.outside "x".toList) ⟨0, 32⟩, .pair (.outside "x".toList) ⟨0, 24⟩]) ∧
    twoDictionariesThenSet.map TwoDictionaries.getOnB =
      some (.throws .IndexOutOfRangeError, .ok ⟨0, 32⟩) := by
  refine ⟨?_, ?_, ?_, ?_⟩ <;> decide!

/-- C19: a builder with twenty nodes on its parse stack, the parse stack at offset 160 of the
second page and full, and `endObjectAction(0)`, the call for an empty object.  The call
returns with 21 entries on the stack, the twenty pointers below as they were and the pointer
to the new object node on top; but the node behind entry 11, the number `11` before the
call, is a node no more: the push of the object grew the parse stack in place, and the
pointer was written on that node.  When the twentieth element is a string of 15504 bytes,
the page has no room for the growth and the call has undefined behaviour: `reAlloc` reaches
no return statement. -/
theorem endObjectAction_push_overwrites_node :
    fullStackView [.numberAction 19] = some ⟨⟨20, 20, ⟨1, 160⟩⟩,
      (([⟨0, 104⟩, ⟨1, 24⟩, ⟨1, 32⟩, ⟨1, 40⟩] : List Ptr) ++
        (List.range 7).map (fun i => Ptr.mk 1 (48 + 16 * i)) ++
        (List.range 9).map (fun i => Ptr.mk 1 (320 + 16 * i))).map Cell.node,
      some .StringNode :: (List.replicate 3 (some .NullNode) ++
        List.replicate 16 (some .NumberNode)),
      List.replicate 4 (.throws .NotConvertibleError) ++
        (List.range 16).map (fun i => Res.ok (4 + i))⟩ ∧
    fullStackObjectIsUb [.numberAction 19] =
      some (⟨[⟨16384, 16380⟩, ⟨16384, 464⟩], 1⟩, false) ∧
    fullStackThenObject [.numberAction 19] = some ⟨⟨40, 21, ⟨1, 160⟩⟩,
      (([⟨0, 104⟩, ⟨1, 24⟩, ⟨1, 32⟩, ⟨1, 40⟩] : List Ptr) ++
        (List.range 7).map (fun i => Ptr.mk 1 (48 + 16 * i)) ++
        (List.range 9).map (fun i => Ptr.mk 1 (320 + 16 * i)) ++ [Ptr.mk 1 464]).map Cell.node,
      some .StringNode :: (List.replicate 3 (some .NullNode) ++
        List.replicate 7 (some .NumberNode) ++ [none] ++
        List.replicate 8 (some .NumberNode) ++ [some .ObjectNode]),
      List.replicate 4 (.throws .NotConvertibleError) ++
        (List.range 7).map (fun i => Res.ok (4 + i)) ++ [.ub] ++
        (List.range 8).map (fun i => Res.ok (12 + i)) ++ [.throws .NotConvertibleError]⟩ ∧
    (fullStackView [.stringAction 2 15506]).map (fun view => view.parseStack) =
      some ⟨20, 20, ⟨1, 160⟩⟩ ∧
    fullStackObjectIsUb [.stringAction 2 15506] =
      some (⟨[⟨16384, 16380⟩, ⟨16384, 15976⟩], 1⟩, true) := by
  refine ⟨?_, ?_, ?_, ?_, ?_⟩ <;> decide!

end ClaimsOnTheArena

end EJ
